import Mathlib

/-!
Verification of the unified-diff patch parser/applier and the multi-edit
engine of the toy-agent repository (src/toy_agent/tools/apply_patch.py and
src/toy_agent/tools/file_ops.py).

The filesystem is modelled as an association list from (already resolved,
absolute) path strings to text contents, matching the spec's view of the
filesystem as a byte-addressable store accessed through whole-file
`exists` / `readText` / `writeText` operations.  Directory creation and
I/O faults are modelled as always succeeding (no claim exercises them).
Path resolution (`os.path.abspath`, `base_path` joining) is modelled as the
identity on the opaque path keys.

Python string primitives (`split`, `startswith`, `strip`, slicing, `join`)
are re-implemented over `List Char` so that every definition evaluates by
kernel reduction.
-/

/-! ## Python string primitives -/

/-- Worker for `pySplitChar`: the accumulator holds the current field in
reverse. -/
def splitCharGo (c : Char) : List Char → List Char → List String
  | [], cur => [String.mk cur.reverse]
  | x :: xs, cur =>
    if x = c then String.mk cur.reverse :: splitCharGo c xs []
    else splitCharGo c xs (x :: cur)

/-- Python `s.split(c)` for a single-character separator: always returns at
least one field; a trailing separator yields a trailing empty field. -/
def pySplitChar (c : Char) (s : String) : List String :=
  splitCharGo c s.toList []

/-- Python `s.startswith(pre)`. -/
def strStarts (s pre : String) : Bool :=
  pre.toList.isPrefixOf s.toList

/-- Python `s.endswith(suf)`. -/
def strEnds (s suf : String) : Bool :=
  suf.toList.isSuffixOf s.toList

/-- Python `s.strip()` (whitespace on both ends). -/
def strTrim (s : String) : String :=
  String.mk ((s.toList.dropWhile Char.isWhitespace).reverse.dropWhile
    Char.isWhitespace).reverse

/-- Python `s[n:]`. -/
def strDrop (s : String) (n : Nat) : String :=
  String.mk (s.toList.drop n)

/-- Python `s[:n]`. -/
def strTake (s : String) (n : Nat) : String :=
  String.mk (s.toList.take n)

/-- Python `'\n'.join(xs)`. -/
def joinLines : List String → String
  | [] => ""
  | [x] => x
  | x :: y :: rest => x ++ "\n" ++ joinLines (y :: rest)

/-- Python `s.rstrip('\n')`: remove every trailing newline character. -/
def rstripNewlines (s : String) : String :=
  String.mk ((s.toList.reverse.dropWhile (· = '\n')).reverse)

/-- Modelled from the claim's wording for C7 (spec §4.3): the insert texts
joined by newline "with a single trailing newline stripped". -/
def stripOneNewline (s : String) : String :=
  if strEnds s "\n" then String.mk s.toList.dropLast else s

/-! ## Data model -/

/-- One line operation of a hunk, mirroring the `(' '|'-'|'+', text)` tuples
built by `_parse_unified_diff` (apply_patch.py lines 97-109). -/
inductive LineOp where
  | ctx (text : String)
  | del (text : String)
  | ins (text : String)
deriving DecidableEq

/-- A hunk as parsed from a `@@ -a,b +c,d @@` header plus its body
(apply_patch.py lines 115-121). -/
structure Hunk where
  old_start : Nat
  old_count : Nat
  new_start : Nat
  new_count : Nat
  lines : List LineOp
deriving DecidableEq

/-- One per-file patch entry (apply_patch.py lines 130-134). -/
structure FileChange where
  file_path : String
  hunks : List Hunk
deriving DecidableEq

/-- One multi-edit operation (file_ops.py, the dicts consumed by
`multi_edit`; `.get` defaults are the empty string and `False`). -/
structure EditOp where
  old_string : String
  new_string : String
  replace_all : Bool
deriving DecidableEq

/-! ## Hunk parser (apply_patch.py, `_parse_unified_diff`) -/

/-- `line[4:].strip()`, strip a leading `a/`, truncate at the first tab
(apply_patch.py lines 38-43). -/
def procOldPath (l : String) : String :=
  let f := strTrim (strDrop l 4)
  let f := if strStarts f "a/" then strDrop f 2 else f
  (pySplitChar '\t' f).headD ""

/-- `lines[i][4:].strip()`, strip a leading `b/`, truncate at the first tab
(apply_patch.py lines 51-54). -/
def procNewPath (l : String) : String :=
  let f := strTrim (strDrop l 4)
  let f := if strStarts f "b/" then strDrop f 2 else f
  (pySplitChar '\t' f).headD ""

/-- Maximal leading run of decimal digits. -/
def splitDigits (cs : List Char) : List Char × List Char :=
  match cs with
  | [] => ([], [])
  | c :: rest =>
    if c.isDigit then
      let (d, r) := splitDigits rest
      (c :: d, r)
    else ([], cs)

/-- Decimal value of a digit list. -/
def digitsToNat (ds : List Char) : Nat :=
  ds.foldl (fun acc c => acc * 10 + (c.toNat - '0'.toNat)) 0

/-- The optional `(?:,(\d+))?` group of the hunk-header regex: a comma
followed by at least one digit.  A comma not followed by a digit leaves the
input untouched (the regex then fails on the mandatory space, exactly as
the backtracking of `re.match` would). -/
def optCount (cs : List Char) : Option Nat × List Char :=
  match cs with
  | ',' :: rest =>
    let (d, r) := splitDigits rest
    if d.isEmpty then (none, cs) else (some (digitsToNat d), r)
  | _ => (none, cs)

/-- `re.match(r'@@ -(\d+)(?:,(\d+))? \+(\d+)(?:,(\d+))? @@', line)` with the
two optional counts defaulting to 1 (apply_patch.py lines 71-79).  `re.match`
anchors at the start only, so trailing characters are allowed. -/
def parseHunkHeader (line : String) : Option (Nat × Nat × Nat × Nat) :=
  match line.toList with
  | '@' :: '@' :: ' ' :: '-' :: rest =>
    let (d1, r1) := splitDigits rest
    if d1.isEmpty then none else
    let (c1, r2) := optCount r1
    match r2 with
    | ' ' :: '+' :: r3 =>
      let (d3, r4) := splitDigits r3
      if d3.isEmpty then none else
      let (c2, r5) := optCount r4
      match r5 with
      | ' ' :: '@' :: '@' :: _ =>
        some (digitsToNat d1, c1.getD 1, digitsToNat d3, c2.getD 1)
      | _ => none
    | _ => none
  | _ => none

/-- Build a `Hunk` from a parsed header and an accumulated body. -/
def mkHunk (hdr : Nat × Nat × Nat × Nat) (acc : List LineOp) : Hunk :=
  ⟨hdr.1, hdr.2.1, hdr.2.2.1, hdr.2.2.2, acc⟩

/-- Parser control state.  The nested `while` loops of
`_parse_unified_diff` advance the line index `i` by exactly one line per
iteration (the only double advance is the failed `+++ ` check, encoded in
the `expectNew` transition), so the parser is a line-at-a-time state
machine:
  * `scan`       — the outer loop, outside any file block;
  * `expectNew o`— a `--- ` line was just consumed, the next line must be
                   the `+++ ` line (lines 46-49);
  * `inFile p hs`— inside a file block, between hunks (the middle loop,
                   lines 66-128);
  * `inHunk ...` — consuming a hunk body (the inner loop, lines 85-113). -/
inductive PState where
  | scan
  | expectNew (old : String)
  | inFile (path : String) (hunks : List Hunk)
  | inHunk (path : String) (hunks : List Hunk) (hdr : Nat × Nat × Nat × Nat)
      (acc : List LineOp)

/-- One transition of the parser: consume line `l`, yielding the next state
and the `FileChange`s completed by this line (a file block is emitted when a
new `--- ` header closes it, matching `patches.append` at line 131). -/
def parseStep (st : PState) (l : String) : PState × List FileChange :=
  match st with
  | .scan =>
    if strStarts l "--- " then (.expectNew (procOldPath l), []) else (.scan, [])
  | .expectNew old =>
    if strStarts l "+++ " then
      let nf := procNewPath l
      let fp := if nf ≠ "/dev/null" then nf else old
      if fp = "/dev/null" then (.scan, []) else (.inFile fp [], [])
    else
      -- lines 47-49: `i += 1; continue` — the line that failed the check is
      -- consumed without being re-examined.
      (.scan, [])
  | .inFile p hs =>
    if strStarts l "@@ " then
      match parseHunkHeader l with
      | some hdr => (.inHunk p hs hdr [], [])
      | none => (.inFile p hs, [])
    else if strStarts l "--- " then
      (.expectNew (procOldPath l), if hs.isEmpty then [] else [⟨p, hs⟩])
    else
      -- middle-loop `else` (lines 125-128): consume the line; the peek for a
      -- following `--- ` only breaks to the outer loop, which handles it the
      -- same way this state does, so it is behaviourally a plain consume.
      (.inFile p hs, [])
  | .inHunk p hs hdr acc =>
    if strStarts l "--- " then
      (.expectNew (procOldPath l), [⟨p, hs ++ [mkHunk hdr acc]⟩])
    else if strStarts l "@@ " then
      match parseHunkHeader l with
      | some hdr' => (.inHunk p (hs ++ [mkHunk hdr acc]) hdr' [], [])
      | none => (.inFile p (hs ++ [mkHunk hdr acc]), [])
    else if strStarts l "\\" then (.inHunk p hs hdr acc, [])
    else if strStarts l " " then (.inHunk p hs hdr (acc ++ [.ctx (strDrop l 1)]), [])
    else if strStarts l "-" then (.inHunk p hs hdr (acc ++ [.del (strDrop l 1)]), [])
    else if strStarts l "+" then (.inHunk p hs hdr (acc ++ [.ins (strDrop l 1)]), [])
    else if l = "" then (.inHunk p hs hdr (acc ++ [.ctx ""]), [])
    else
      -- body break on an unrecognized line (line 111) followed by the
      -- middle-loop `else` consuming it; the hunk was appended at line 115.
      (.inFile p (hs ++ [mkHunk hdr acc]), [])

/-- File changes still pending when the input ends (a file block with at
least one hunk is appended when the outer loop terminates). -/
def finalizeState (st : PState) : List FileChange :=
  match st with
  | .scan => []
  | .expectNew _ => []
  | .inFile p hs => if hs.isEmpty then [] else [⟨p, hs⟩]
  | .inHunk p hs hdr acc => [⟨p, hs ++ [mkHunk hdr acc]⟩]

/-- Run the parser state machine over the remaining lines. -/
def parseGo (st : PState) (ls : List String) : List FileChange :=
  match ls with
  | [] => finalizeState st
  | l :: rest =>
    let (st', out) := parseStep st l
    out ++ parseGo st' rest

/-- `_parse_unified_diff` (apply_patch.py lines 12-138): split the patch on
newlines and scan. -/
def parseUnifiedDiff (patchContent : String) : List FileChange :=
  parseGo .scan (pySplitChar '\n' patchContent)

/-! ### Literal transcription of the parser loops

`parseUnifiedDiff` above re-expresses the three nested `while` loops of
`_parse_unified_diff` as a line-at-a-time state machine.  The following
definitions instead transcribe the loops literally, index-based, one
definition per `while` (`bodyLoop` = lines 85-113, `midLoop` = lines
66-128, `outerLoop` = lines 33-136); the `max _ (i + 1)` / `max _ (i + 2)`
clamps only make termination syntactic and are proved to be no-ops
(`bodyLoop_ge`, `midLoop_ge`).  `parseOrig_eq_parseUnifiedDiff` below
proves the two renderings equal, so every theorem about
`parseUnifiedDiff` is a theorem about the literal loop structure. -/

def bodyLoop (ls : List String) (i : Nat) (acc : List LineOp) :
    List LineOp × Nat :=
  if _h : i < ls.length then
    let line := ls.getD i ""
    if strStarts line "--- " || strStarts line "@@ " then (acc, i)
    else if strStarts line "\\" then bodyLoop ls (i + 1) acc
    else if strStarts line " " then bodyLoop ls (i + 1) (acc ++ [.ctx (strDrop line 1)])
    else if strStarts line "-" then bodyLoop ls (i + 1) (acc ++ [.del (strDrop line 1)])
    else if strStarts line "+" then bodyLoop ls (i + 1) (acc ++ [.ins (strDrop line 1)])
    else if line = "" then bodyLoop ls (i + 1) (acc ++ [.ctx ""])
    else (acc, i)
  else (acc, i)
termination_by ls.length - i

def midLoop (ls : List String) (i : Nat) (hunks : List Hunk) :
    List Hunk × Nat :=
  if _h : i < ls.length then
    let line := ls.getD i ""
    if strStarts line "@@ " then
      match parseHunkHeader line with
      | some hdr =>
        let r := bodyLoop ls (i + 1) []
        midLoop ls (max r.2 (i + 1)) (hunks ++ [mkHunk hdr r.1])
      | none => midLoop ls (i + 1) hunks
    else if strStarts line "--- " then (hunks, i)
    else
      if i + 1 ≥ ls.length then (hunks, i + 1)
      else if strStarts (ls.getD (i + 1) "") "--- " then (hunks, i + 1)
      else midLoop ls (i + 1) hunks
  else (hunks, i)
termination_by ls.length - i
decreasing_by all_goals omega

def outerLoop (ls : List String) (i : Nat) : List FileChange :=
  if _h : i < ls.length then
    let line := ls.getD i ""
    if strStarts line "--- " then
      let old_file := procOldPath line
      if i + 1 ≥ ls.length then outerLoop ls (i + 2)
      else if !(strStarts (ls.getD (i + 1) "") "+++ ") then outerLoop ls (i + 2)
      else
        let new_file := procNewPath (ls.getD (i + 1) "")
        let fp := if new_file ≠ "/dev/null" then new_file else old_file
        if fp = "/dev/null" then outerLoop ls (i + 2)
        else
          let r := midLoop ls (i + 2) []
          (if r.1.isEmpty then [] else [(⟨fp, r.1⟩ : FileChange)]) ++
            outerLoop ls (max r.2 (i + 2))
    else outerLoop ls (i + 1)
  else []
termination_by ls.length - i
decreasing_by all_goals omega

def parseOrig (patchContent : String) : List FileChange :=
  outerLoop (pySplitChar '\n' patchContent) 0

/-! ## Hunk applier (apply_patch.py, `_apply_hunk_to_content`) -/

/-- `content.split('\n')` followed by the guarded trailing-empty removal of
apply_patch.py lines 152-158.  (The inner condition can in fact never fire:
when the content does not end in a newline the last field of the split is
non-empty; it is kept for faithfulness.) -/
def contentLines (content : String) : List String :=
  let lines := pySplitChar '\n' content
  if content != "" && !(strEnds content "\n") then
    if !lines.isEmpty && lines.getLast? == some "" then lines.dropLast else lines
  else lines

/-- Python `xs[:k]` (a negative bound counts from the end, clamped at 0). -/
def pySliceTo (xs : List String) (k : Int) : List String :=
  if 0 ≤ k then xs.take k.toNat else xs.take (xs.length - (-k).toNat)

/-- Python `xs[k:]` (a negative bound counts from the end, clamped at 0). -/
def pySliceFrom (xs : List String) (k : Int) : List String :=
  if 0 ≤ k then xs.drop k.toNat else xs.drop (xs.length - (-k).toNat)

/-- Python `xs[k]` with a negative index counting from the end.  The sole
caller guards each access so the out-of-range default is never observed. -/
def pyGet (xs : List String) (k : Int) : String :=
  if 0 ≤ k then xs.getD k.toNat "" else xs.getD (xs.length - (-k).toNat) ""

/-- True on Context and Delete operations. -/
def isCtxOrDel : LineOp → Bool
  | .ctx _ => true
  | .del _ => true
  | .ins _ => false

/-- `match_count`: number of Context/Delete line operations
(apply_patch.py line 165). -/
def matchCount (ops : List LineOp) : Nat :=
  (ops.filter isCtxOrDel).length

/-- The verification walk of apply_patch.py lines 172-179: each
Context/Delete operation must equal the actual line at the advancing
cursor (`''` when the cursor is past the end); Insert operations do not
move the cursor. -/
def verifyOps (lines : List String) : Int → List LineOp → Bool
  | _, [] => true
  | idx, .ctx t :: rest =>
    (if idx < (lines.length : Int) then pyGet lines idx else "") == t &&
      verifyOps lines (idx + 1) rest
  | idx, .del t :: rest =>
    (if idx < (lines.length : Int) then pyGet lines idx else "") == t &&
      verifyOps lines (idx + 1) rest
  | idx, .ins _ :: rest => verifyOps lines idx rest

/-- The rebuild loop of apply_patch.py lines 188-203: Context copies the
line under the cursor (when in range) and advances, Delete only advances,
Insert emits its text; at the end the remaining lines are appended. -/
def rebuildLoop (lines : List String) : Int → List LineOp → List String
  | idx, [] => pySliceFrom lines idx
  | idx, .ctx _ :: rest =>
    (if idx < (lines.length : Int) then [pyGet lines idx] else []) ++
      rebuildLoop lines (idx + 1) rest
  | idx, .del _ :: rest => rebuildLoop lines (idx + 1) rest
  | idx, .ins t :: rest => t :: rebuildLoop lines idx rest

/-- `_apply_hunk_to_content` (apply_patch.py lines 141-205). -/
def applyHunkToContent (content : String) (hunk : Hunk) : String × Bool :=
  let lines := contentLines content
  let oldStart : Int := (hunk.old_start : Int) - 1
  if oldStart + (matchCount hunk.lines : Int) > (lines.length : Int) then
    (content, false)
  else if verifyOps lines oldStart hunk.lines then
    (joinLines (pySliceTo lines oldStart ++ rebuildLoop lines oldStart hunk.lines),
      true)
  else (content, false)

/-- The combined success condition of the two failure guards of
`_apply_hunk_to_content`: enough lines to match against, and every
Context/Delete text equal to the corresponding line. -/
def spanOk (content : String) (hunk : Hunk) : Bool :=
  let lines := contentLines content
  let oldStart : Int := (hunk.old_start : Int) - 1
  !(decide (oldStart + (matchCount hunk.lines : Int) > (lines.length : Int))) &&
    verifyOps lines oldStart hunk.lines

/-- Modelled from the spec (§4.2 step 5): the replay of a verified hunk —
Context lines copy the matched original line forward, Delete lines advance
the read cursor without copying, Insert lines emit their stored text
without advancing the read cursor. -/
def specReplay (lines : List String) : Nat → List LineOp → List String
  | _, [] => []
  | cur, .ctx _ :: rest => lines.getD cur "" :: specReplay lines (cur + 1) rest
  | cur, .del _ :: rest => specReplay lines (cur + 1) rest
  | cur, .ins t :: rest => t :: specReplay lines cur rest

/-- Modelled from the spec (§4.2 step 5): all lines before the insertion
point unchanged, then the replay of the hunk, then all lines from the final
read cursor to the end of the original sequence. -/
def specRebuild (lines : List String) (ip : Nat) (ops : List LineOp) : List String :=
  lines.take ip ++ specReplay lines ip ops ++ lines.drop (ip + matchCount ops)

/-! ## Filesystem model -/

/-- The filesystem: an association list from resolved path to text content. -/
abbrev FS := List (String × String)

/-- `readText` / `exists`: the content stored at `p`, if any. -/
def fsLookup (fs : FS) (p : String) : Option String :=
  match fs with
  | [] => none
  | e :: t => if e.1 = p then some e.2 else fsLookup t p

/-- `writeText`: replace the first entry for `p`, or append a new one. -/
def fsWrite (fs : FS) (p c : String) : FS :=
  match fs with
  | [] => [(p, c)]
  | e :: t => if e.1 = p then (p, c) :: t else e :: fsWrite t p c

/-! ## Patch orchestrator (apply_patch.py, `_apply_patch_to_file` and
`apply_patch`) -/

/-- Per-file application outcome: the success flag and the message (on
success) or error text (on failure) used by the summary.  The extra
informational fields of the Python result dict (`applied_hunks`,
`failed_hunks`, `file_path`) do not feed the summary and are not
modelled. -/
structure FileResult where
  success : Bool
  text : String
deriving DecidableEq

/-- Comma-space separated rendering of a list of naturals. -/
def joinComma : List Nat → String
  | [] => ""
  | [n] => toString n
  | n :: m :: rest => toString n ++ ", " ++ joinComma (m :: rest)

/-- The Python `repr` of a list of integers, as interpolated into the
`部分 hunk 应用失败: {failed_hunks}` error message. -/
def natListRepr (ns : List Nat) : String :=
  "[" ++ joinComma ns ++ "]"

/-- The hunk loop of apply_patch.py lines 274-285: thread the evolving
content through every hunk, recording 1-based applied and failed indices;
a failed hunk leaves the content unchanged. -/
def applyHunksGo (content : String) (hunks : List Hunk) (i : Nat) :
    String × List Nat × List Nat :=
  match hunks with
  | [] => (content, [], [])
  | h :: rest =>
    let r := applyHunkToContent content h
    let q := applyHunksGo (if r.2 then r.1 else content) rest (i + 1)
    if r.2 then (q.1, i :: q.2.1, q.2.2) else (q.1, q.2.1, i :: q.2.2)

/-- All hunks applied in order, starting the index at 1. -/
def applyHunksLoop (content : String) (hunks : List Hunk) :
    String × List Nat × List Nat :=
  applyHunksGo content hunks 1

/-- The insert-line texts of every hunk, in hunk and line order. -/
def insertTexts (hunks : List Hunk) : List String :=
  (hunks.map (fun h => h.lines.filterMap (fun op =>
    match op with
    | .ins t => some t
    | _ => none))).flatten

/-- `_apply_patch_to_file` (apply_patch.py lines 208-310): create a missing
file from the insert lines (`content += line + '\n'` per insert, then
`content.rstrip('\n')`); otherwise read, apply all hunks, and write only
when no hunk failed.  Directory creation and write/decode errors are
modelled as always succeeding. -/
def applyPatchToFile (fs : FS) (path : String) (hunks : List Hunk) :
    FS × FileResult :=
  match fsLookup fs path with
  | none =>
    let content := String.join ((insertTexts hunks).map (fun t => t ++ "\n"))
    (fsWrite fs path (rstripNewlines content), ⟨true, "成功创建文件 " ++ path⟩)
  | some content =>
    let r := applyHunksLoop content hunks
    if !r.2.2.isEmpty then
      (fs, ⟨false, "部分 hunk 应用失败: " ++ natListRepr r.2.2⟩)
    else
      (fsWrite fs path r.1, ⟨true, "成功应用补丁到 " ++ path⟩)

/-- The per-file loop of `apply_patch` (lines 346-361), threading the
filesystem and collecting `(path, result)` pairs in order. -/
def applyFiles (fs : FS) (patches : List FileChange) :
    FS × List (String × FileResult) :=
  match patches with
  | [] => (fs, [])
  | fc :: rest =>
    let r := applyPatchToFile fs fc.file_path fc.hunks
    let q := applyFiles r.1 rest
    (q.1, (fc.file_path, r.2) :: q.2)

/-- One summary line per file (apply_patch.py lines 369-373). -/
def resultLine (p : String) (r : FileResult) : String :=
  if r.success then "✓ " ++ p ++ ": " ++ r.text
  else "✗ " ++ p ++ ": " ++ r.text

/-- The summary header (apply_patch.py line 367): reports
`success_count/total_count` files succeeded. -/
def summaryHeader (successCount totalCount : Nat) : String :=
  "补丁应用完成: " ++ toString successCount ++ "/" ++ toString totalCount ++
    " 个文件成功"

/-- Steps 3-5 of `apply_patch` on an already parsed patch document: apply
every file change, then build the line-oriented summary. -/
def applyPatchChanges (fs : FS) (patches : List FileChange) : FS × String :=
  let a := applyFiles fs patches
  let successCount := (a.2.filter (fun r => r.2.success)).length
  let totalCount := a.2.length
  (a.1, joinLines (summaryHeader successCount totalCount ::
    a.2.map (fun r => resultLine r.1 r.2)))

/-- `apply_patch` (apply_patch.py lines 314-378) with `base_path = None`
and the path keys treated as already absolute: guard the empty patch,
parse, then apply and summarize. -/
def applyPatch (fs : FS) (patchText : String) : FS × String :=
  if strTrim patchText = "" then (fs, "错误: 补丁内容不能为空")
  else
    match parseUnifiedDiff patchText with
    | [] => (fs, "错误: 无法解析补丁内容，请确保是有效的 unified diff 格式")
    | ps => applyPatchChanges fs ps

/-! ## Multi-edit engine (file_ops.py) -/

/-- Python `needle in hay` (literal substring test). -/
def strContainsGo (needle : List Char) : List Char → Bool
  | [] => needle.isEmpty
  | c :: t => needle.isPrefixOf (c :: t) || strContainsGo needle t

/-- Worker for `replaceOnce`: replace the leftmost occurrence only. -/
def replaceOnceGo (old new : List Char) : List Char → List Char
  | [] => []
  | c :: t =>
    if old.isPrefixOf (c :: t) then new ++ (c :: t).drop old.length
    else c :: replaceOnceGo old new t

/-- Python `hay.replace(old, new, 1)`: with an empty `old` the replacement
is inserted once at the very beginning; otherwise the leftmost occurrence
is replaced (no occurrence leaves the string unchanged). -/
def replaceOnce (hay old new : List Char) : List Char :=
  if old.isEmpty then new ++ hay else replaceOnceGo old new hay

/-- `'0'..'7'`. -/
def isOctalDigit (c : Char) : Bool :=
  '0' ≤ c && c ≤ '7'

/-- Octal value of a digit list. -/
def octalToNat (ds : List Char) : Nat :=
  ds.foldl (fun acc c => acc * 8 + (c.toNat - '0'.toNat)) 0

/-- CPython's expansion of a string replacement template for a pattern with
zero capturing groups (the pattern `re.escape(old_string)` built at
file_ops.py line 102), as applied by `pattern.sub(new_string, content)` at
line 106.  `old` is the literal the pattern matches, so the whole-match
reference `\g<0>` expands to it.  Rules (Python `re` documentation and
`sre_parse.parse_template`): known ASCII letter escapes become control
characters; an unknown ASCII letter escape is an error (`none`); `\0` plus
up to two octal digits, or three octal digits, is an octal escape; any
other digit run is a group reference, which errors because the pattern has
no groups; a backslash before a non-alphanumeric character is kept
verbatim; a trailing lone backslash is an error.  (The exact text of the
raised `re.error` is not modelled, only that it raises.)

The recursion is made structural with a fuel parameter: every recursive
call consumes at least one template character while spending exactly one
unit of fuel, so with fuel `cs.length + 1` the fuel-exhausted arm is
unreachable (`expandGoF_fuel` below makes this rigorous). -/
def expandGoF (old : List Char) : Nat → List Char → Option (List Char) →
    Option (List Char)
  | 0, _, _ => none
  | _ + 1, [], some _ => none
  | f + 1, c :: t, some acc =>
    if c.isDigit then expandGoF old f t (some (acc ++ [c]))
    else if c = '>' then
      if acc.isEmpty then none
      else if digitsToNat acc = 0 then
        (expandGoF old f t none).map (fun r => old ++ r)
      else none
    else none
  | _ + 1, [], none => some []
  | f + 1, '\\' :: rest, none =>
    match rest with
    | [] => none
    | c :: rest2 =>
      if c = '\\' then (expandGoF old f rest2 none).map (fun t => '\\' :: t)
      else if c = 'n' then (expandGoF old f rest2 none).map (fun t => '\n' :: t)
      else if c = 't' then (expandGoF old f rest2 none).map (fun t => '\t' :: t)
      else if c = 'r' then (expandGoF old f rest2 none).map (fun t => '\r' :: t)
      else if c = 'v' then
        (expandGoF old f rest2 none).map (fun t => Char.ofNat 11 :: t)
      else if c = 'f' then
        (expandGoF old f rest2 none).map (fun t => Char.ofNat 12 :: t)
      else if c = 'a' then
        (expandGoF old f rest2 none).map (fun t => Char.ofNat 7 :: t)
      else if c = 'b' then
        (expandGoF old f rest2 none).map (fun t => Char.ofNat 8 :: t)
      else if c = 'g' then
        match rest2 with
        | '<' :: rest3 => expandGoF old f rest3 (some [])
        | _ => none
      else if c = '0' then
        match rest2 with
        | [] => (expandGoF old f rest2 none).map (fun t => Char.ofNat 0 :: t)
        | a :: more =>
          if isOctalDigit a then
            match more with
            | b :: r =>
              if isOctalDigit b then
                (expandGoF old f r none).map (fun t =>
                  Char.ofNat (octalToNat ['0', a, b]) :: t)
              else
                (expandGoF old f more none).map (fun t =>
                  Char.ofNat (octalToNat ['0', a]) :: t)
            | [] =>
              (expandGoF old f more none).map (fun t =>
                Char.ofNat (octalToNat ['0', a]) :: t)
          else (expandGoF old f rest2 none).map (fun t => Char.ofNat 0 :: t)
      else if c.isDigit then
        match rest2 with
        | c2 :: c3 :: r =>
          if isOctalDigit c && isOctalDigit c2 && isOctalDigit c3 then
            let v := octalToNat [c, c2, c3]
            if v ≤ 255 then
              (expandGoF old f r none).map (fun t => Char.ofNat v :: t)
            else none
          else none
        | _ => none
      else if c.isAlpha then none
      else (expandGoF old f rest2 none).map (fun t => '\\' :: c :: t)
  | f + 1, c :: rest, none => (expandGoF old f rest none).map (fun t => c :: t)

/-- Template expansion entry point (see `expandGoF`). -/
def expandTemplate (old : List Char) (cs : List Char) : Option (List Char) :=
  expandGoF old (cs.length + 1) cs none

/-- `pattern.sub` for the non-empty escaped-literal pattern `old`: scan left
to right; at a match emit the (already expanded) replacement, count it, and
skip the rest of the matched span (`k` is the number of characters of the
current match still to skip); otherwise copy one character. -/
def subSkip (old repl : List Char) : List Char → Nat → List Char × Nat
  | [], _ => ([], 0)
  | _ :: t, k + 1 => subSkip old repl t k
  | c :: t, 0 =>
    if old.isPrefixOf (c :: t) then
      let r := subSkip old repl t (old.length - 1)
      (repl ++ r.1, r.2 + 1)
    else
      let r := subSkip old repl t 0
      (c :: r.1, r.2)

/-- `pattern.sub` for the empty pattern: the replacement is inserted before
every character and once at the end. -/
def subEmpty (repl : List Char) : List Char → List Char
  | [] => repl
  | c :: t => repl ++ c :: subEmpty repl t

/-- `pattern.sub(new, s)` together with the match count (`len(findall)`) for
the escaped-literal pattern of `old` and the already expanded replacement
`repl`. -/
def pySub (old repl s : List Char) : List Char × Nat :=
  if old.isEmpty then (subEmpty repl s, s.length + 1)
  else subSkip old repl s 0

/-- `_apply_content_edit` (file_ops.py lines 97-114).  `replace_all=True`
compiles `re.escape(old)` and substitutes `new` as a replacement template
(occurrences counted by `findall`); a bad template raises (`.error`).
`replace_all=False` replaces the first literal occurrence if present and
raises otherwise. -/
def applyContentEdit (content old new : String) (replaceAll : Bool) :
    Except String (String × Nat) :=
  if replaceAll then
    match expandTemplate old.toList new.toList with
    | none => .error "re 替换模板无效"
    | some repl =>
      let (res, occ) := pySub old.toList repl content.toList
      .ok (String.mk res, occ)
  else
    if strContainsGo old.toList content.toList then
      .ok (String.mk (replaceOnce content.toList old.toList new.toList), 1)
    else
      .error ("未找到字符串: " ++ strTake old 50 ++ "...")

/-- `_is_binary_file` (file_ops.py lines 31-38): a NUL among the first 1024
units of the content (the byte heuristic, modelled over characters). -/
def isBinaryContent (c : String) : Bool :=
  (c.toList.take 1024).contains (Char.ofNat 0)

/-- `old_string[:100] + ('...' if len(old_string) > 100 else '')`. -/
def truncate100 (s : String) : String :=
  strTake s 100 ++ (if s.toList.length > 100 then "..." else "")

/-- The pre-validation membership loop (file_ops.py lines 77-81): every
non-empty `old_string` must occur in the original content; the first
offender aborts with its 1-based index. -/
def membershipCheck (content : String) : List EditOp → Nat → Option String
  | [], _ => none
  | e :: rest, i =>
    if e.old_string != "" && !(strContainsGo e.old_string.toList content.toList)
    then
      some ("编辑 " ++ toString (i + 1) ++ ": 要替换的字符串在文件中未找到: \"" ++
        truncate100 e.old_string ++ "\"")
    else membershipCheck content rest (i + 1)

/-- The `old_string == new_string` loop (file_ops.py lines 87-92). -/
def oldNewCheck : List EditOp → Nat → Option String
  | [], _ => none
  | e :: rest, i =>
    if e.old_string = e.new_string then
      some ("编辑 " ++ toString (i + 1) ++ ": old_string 和 new_string 不能相同")
    else oldNewCheck rest (i + 1)

/-- Validation outcome (the `{"valid": ..., "message": ...}` dict; the
message is empty on success, where Python omits the key). -/
structure VResult where
  valid : Bool
  message : String
deriving DecidableEq

/-- The tail of `_validate_input`: the `old_string != new_string` pass,
shared by the new-file and existing-file branches. -/
def vFinal (edits : List EditOp) : VResult :=
  match oldNewCheck edits 0 with
  | some m => ⟨false, m⟩
  | none => ⟨true, ""⟩

/-- `_validate_input` (file_ops.py lines 41-94), over the filesystem model:
non-empty edit list, no `.ipynb` path, the new-file first-edit rule or the
existing-file binary and membership checks, then the `old != new` pass.
Parent-directory creation is a modelled no-op. -/
def validateInput (fs : FS) (path : String) (edits : List EditOp) : VResult :=
  if edits.isEmpty then ⟨false, "至少需要一个编辑操作"⟩
  else if strEnds path ".ipynb" then ⟨false, "不支持编辑 Jupyter Notebook 文件"⟩
  else
    match fsLookup fs path with
    | none =>
      if (edits.headD ⟨"", "", false⟩).old_string != "" then
        ⟨false, "对于新文件，第一个编辑的 old_string 必须为空"⟩
      else vFinal edits
    | some content =>
      if isBinaryContent content then ⟨false, "无法编辑二进制文件"⟩
      else
        match membershipCheck content edits 0 with
        | some m => ⟨false, m⟩
        | none => vFinal edits

/-- The apply loop of `multi_edit` (file_ops.py lines 160-178): edits are
applied strictly in order against the evolving content; a raising edit
aborts the whole call with its 1-based index.  On success the per-edit
occurrence counts are returned for the summary. -/
def applyEditsLoop (content : String) : List EditOp → Nat →
    Except String (String × List Nat)
  | [], _ => .ok (content, [])
  | e :: rest, i =>
    match applyContentEdit content e.old_string e.new_string e.replace_all with
    | .error msg => .error ("编辑 " ++ toString (i + 1) ++ " 出错: " ++ msg)
    | .ok (nc, occ) =>
      match applyEditsLoop nc rest (i + 1) with
      | .error m => .error m
      | .ok (fc, occs) => .ok (fc, occ :: occs)

/-- The per-edit summary lines of `multi_edit` (file_ops.py lines 191-193). -/
def editDetails : List Nat → Nat → List String
  | [], _ => []
  | n :: rest, i =>
    ("编辑 " ++ toString (i + 1) ++ ": 替换了 " ++ toString n ++ " 处匹配") ::
      editDetails rest (i + 1)

/-- `multi_edit` (file_ops.py lines 117-201) over the filesystem model:
validate, read (empty for a new file), apply all edits in order, write only
if every edit applied, and build the summary. -/
def multiEdit (fs : FS) (path : String) (edits : List EditOp) : FS × String :=
  let v := validateInput fs path edits
  if !v.valid then (fs, "错误: " ++ v.message)
  else
    let current := (fsLookup fs path).getD ""
    match applyEditsLoop current edits 0 with
    | .error msg => (fs, msg)
    | .ok (finalContent, occs) =>
      let summary := "成功对 " ++ path ++ " 应用了 " ++ toString edits.length ++
        " 个编辑操作"
      let details := editDetails occs 0
      (fsWrite fs path finalContent,
        if details.isEmpty then summary else summary ++ "\n" ++ joinLines details)

/-! ## General lemmas about the embedding -/

set_option linter.unreachableTactic false in
set_option linter.unusedTactic false in
/-- Fuel insensitivity: the result of `expandGoF` does not depend on the
fuel as long as it exceeds the template length, so the
`cs.length + 1` used by `expandTemplate` fully determines the function —
the fuel-exhausted arm is unreachable. -/
theorem expandGoF_fuel (old : List Char) (f1 : Nat) (cs : List Char)
    (m : Option (List Char)) :
    ∀ f2 : Nat, cs.length < f1 → cs.length < f2 →
      expandGoF old f1 cs m = expandGoF old f2 cs m := by
  induction f1, cs, m using expandGoF.induct old <;>
    (intro f2 h1 h2
     first
       | omega
       | (rcases f2 with _ | g2
          · omega
          · try simp only [List.length_cons] at h1 h2
            simp [expandGoF, *] <;>
              first
                | rfl
                | (apply_assumption <;>
                    first
                      | omega
                      | (simp only [List.length_cons]; omega))
                | (apply congrArg
                   apply_assumption <;>
                     first
                       | omega
                       | (simp only [List.length_cons]; omega))))

/-! ## Claim C1 -/

/-- Claim C1: `applyHunk` never raises (it is a total function by
construction) and is atomic on failure — for every content string and
hunk, if the context/delete span does not match (insufficient lines, or a
Context/Delete text differing from the corresponding line, i.e. `spanOk`
is false), the call returns the original content unchanged together with
`success = false`. -/
theorem applyHunk_atomic_on_failure (content : String) (hunk : Hunk)
    (h : spanOk content hunk = false) :
    applyHunkToContent content hunk = (content, false) := by
  unfold spanOk at h
  unfold applyHunkToContent
  by_cases hg : ((hunk.old_start : Int) - 1 + (matchCount hunk.lines : Int) >
      ((contentLines content).length : Int))
  · simp [hg]
  · have hv : verifyOps (contentLines content) ((hunk.old_start : Int) - 1)
        hunk.lines = false := by
      simp [hg] at h
      exact h
    simp [hg, hv]

/-- Witness for C1 at the spec's own example: the hunk of C3 applied to
`"line1\nDIFFERENT\nline3"` fails the span check and returns the original
content with `success = false`. -/
theorem applyHunk_atomic_on_failure_witness :
    spanOk "line1\nDIFFERENT\nline3"
      ⟨1, 3, 1, 3, [.ctx "line1", .del "line2", .ins "new2", .ctx "line3"]⟩ =
        false ∧
    applyHunkToContent "line1\nDIFFERENT\nline3"
      ⟨1, 3, 1, 3, [.ctx "line1", .del "line2", .ins "new2", .ctx "line3"]⟩ =
      ("line1\nDIFFERENT\nline3", false) :=
  ⟨by decide, applyHunk_atomic_on_failure _ _ (by decide)⟩

/-! ## Claim C3 -/

/-- Claim C3: parsing the patch text
`"--- a/f\n+++ b/f\n@@ -1,3 +1,3 @@\n line1\n-line2\n+new2\n line3"` yields
exactly one `FileChange` for `"f"` with one hunk `-1,3 +1,3` whose line
operations are Context line1, Delete line2, Insert new2, Context line3, in
order. -/
theorem parse_c3_example :
    parseUnifiedDiff
        "--- a/f\n+++ b/f\n@@ -1,3 +1,3 @@\n line1\n-line2\n+new2\n line3" =
      [⟨"f", [⟨1, 3, 1, 3,
        [.ctx "line1", .del "line2", .ins "new2", .ctx "line3"]⟩]⟩] := by
  decide

/-! ## Claim C9 -/

/-- Counterexample to C9 as stated: in
`"--- a/x\n--- a/y\n+++ b/y\n@@ -1 +1 @@\n+z"` the `--- a/y` line
immediately follows an abandoned `--- a/x` header, yet the parse result is
empty — the parser skipped `--- a/y` instead of recognizing it as the
start of a new block.  The second conjunct shows the skipped block is a
perfectly valid one: parsed on its own it yields the FileChange the claim
expects. -/
theorem parse_resume_counterexample :
    parseUnifiedDiff "--- a/x\n--- a/y\n+++ b/y\n@@ -1 +1 @@\n+z" = [] ∧
    parseUnifiedDiff "--- a/y\n+++ b/y\n@@ -1 +1 @@\n+z" =
      [⟨"y", [⟨1, 1, 1, 1, [.ins "z"]⟩]⟩] := by
  decide

/-- Claim C9 (amended): when a `--- ` line is not immediately followed by a
`+++ ` line, the parser abandons the block and resumes scanning only after
the line that failed the check — that line is itself skipped, so a `--- `
line immediately following the abandoned header is NOT recognized as the
start of a new file-change block. -/
theorem parse_resume_skips_failed_line (l1 l2 : String) (rest : List String)
    (h1 : strStarts l1 "--- " = true) (h2 : strStarts l2 "+++ " = false) :
    parseGo .scan (l1 :: l2 :: rest) = parseGo .scan rest := by
  simp [parseGo, parseStep, h1, h2]

/-- Witness for the amended C9: with `--- a/x` followed by `--- a/y`, the
scan resumes at the third line. -/
theorem parse_resume_skips_failed_line_witness :
    strStarts "--- a/x" "--- " = true ∧ strStarts "--- a/y" "+++ " = false ∧
    parseGo .scan ["--- a/x", "--- a/y", "+++ b/y"] = parseGo .scan ["+++ b/y"] :=
  ⟨by decide, by decide,
    parse_resume_skips_failed_line _ _ _ (by decide) (by decide)⟩

/-! ## Claim C4 -/

theorem matchCount_nil : matchCount [] = 0 := rfl

theorem matchCount_ctx (t : String) (rest : List LineOp) :
    matchCount (.ctx t :: rest) = matchCount rest + 1 := by
  simp [matchCount, isCtxOrDel, List.filter]

theorem matchCount_del (t : String) (rest : List LineOp) :
    matchCount (.del t :: rest) = matchCount rest + 1 := by
  simp [matchCount, isCtxOrDel, List.filter]

theorem matchCount_ins (t : String) (rest : List LineOp) :
    matchCount (.ins t :: rest) = matchCount rest := by
  simp [matchCount, isCtxOrDel, List.filter]

theorem pyGet_natCast (xs : List String) (idx : Nat) :
    pyGet xs (idx : Int) = xs.getD idx "" := by
  simp [pyGet]

theorem pySliceTo_natCast (xs : List String) (idx : Nat) :
    pySliceTo xs (idx : Int) = xs.take idx := by
  simp [pySliceTo]

theorem pySliceFrom_natCast (xs : List String) (idx : Nat) :
    pySliceFrom xs (idx : Int) = xs.drop idx := by
  simp [pySliceFrom]

/-- On a non-negative cursor with enough lines ahead, the code's rebuild
loop produces exactly the spec's replay followed by the lines from the
final read cursor. -/
theorem rebuildLoop_eq_specReplay (lines : List String) (ops : List LineOp)
    (idx : Nat) (h : idx + matchCount ops ≤ lines.length) :
    rebuildLoop lines (idx : Int) ops =
      specReplay lines idx ops ++ lines.drop (idx + matchCount ops) := by
  induction ops generalizing idx with
  | nil =>
    simp [rebuildLoop, specReplay, pySliceFrom_natCast, matchCount_nil]
  | cons op rest ih =>
    cases op with
    | ctx t =>
      rw [matchCount_ctx] at h
      have hidx : idx < lines.length := by omega
      have hc : ((idx : Int) < (lines.length : Int)) := by exact_mod_cast hidx
      have hcast : (idx : Int) + 1 = ((idx + 1 : Nat) : Int) := by push_cast; ring
      have hdx : idx + 1 + matchCount rest = idx + (matchCount rest + 1) := by
        omega
      rw [rebuildLoop, if_pos hc, pyGet_natCast, hcast, ih (idx + 1) (by omega),
        hdx]
      simp [specReplay, matchCount_ctx]
    | del t =>
      rw [matchCount_del] at h
      have hcast : (idx : Int) + 1 = ((idx + 1 : Nat) : Int) := by push_cast; ring
      have hdx : idx + 1 + matchCount rest = idx + (matchCount rest + 1) := by
        omega
      rw [rebuildLoop, hcast, ih (idx + 1) (by omega), hdx]
      simp [specReplay, matchCount_del]
    | ins t =>
      rw [matchCount_ins] at h
      rw [rebuildLoop, ih idx h]
      simp [specReplay, matchCount_ins]

/-- Claim C4: success-case rebuild of `applyHunk` — when the context/delete
span verifies (and the 1-based `old_start` is at least 1, so the 0-based
insertion point is well defined), the output is the lines before the
insertion point unchanged, then the replay of the hunk (Context copies the
matched original line, Delete advances the read cursor without copying,
Insert emits its stored text without advancing), then all remaining
original lines, joined by newline. -/
theorem applyHunk_success_rebuild (content : String) (hunk : Hunk)
    (h1 : 1 ≤ hunk.old_start) (h2 : spanOk content hunk = true) :
    applyHunkToContent content hunk =
      (joinLines (specRebuild (contentLines content) (hunk.old_start - 1)
        hunk.lines), true) := by
  unfold spanOk at h2
  simp only [Bool.and_eq_true, Bool.not_eq_true', decide_eq_false_iff_not] at h2
  obtain ⟨hg, hv⟩ := h2
  unfold applyHunkToContent
  simp only [hg, if_false, hv, if_true]
  have hcast : ((hunk.old_start : Int) - 1) = ((hunk.old_start - 1 : Nat) : Int) := by
    omega
  have hle : (hunk.old_start - 1) + matchCount hunk.lines ≤
      (contentLines content).length := by
    rw [hcast] at hg
    omega
  rw [hcast, pySliceTo_natCast, rebuildLoop_eq_specReplay _ _ _ hle]
  simp [specRebuild]

/-- Witness for C4 at the spec's own example: applying the C3 hunk to
`"line1\nline2\nline3"` succeeds and rebuilds `"line1\nnew2\nline3"`. -/
theorem applyHunk_success_rebuild_witness :
    1 ≤ (Hunk.mk 1 3 1 3
      [.ctx "line1", .del "line2", .ins "new2", .ctx "line3"]).old_start ∧
    spanOk "line1\nline2\nline3"
      ⟨1, 3, 1, 3, [.ctx "line1", .del "line2", .ins "new2", .ctx "line3"]⟩ =
      true ∧
    applyHunkToContent "line1\nline2\nline3"
      ⟨1, 3, 1, 3, [.ctx "line1", .del "line2", .ins "new2", .ctx "line3"]⟩ =
      ("line1\nnew2\nline3", true) :=
  ⟨by decide, by decide,
    (applyHunk_success_rebuild _ _ (by decide) (by decide)).trans (by decide)⟩

/-! ## Claim C2 -/

/-- When every hunk fails against content `c`, the hunk loop leaves the
content unchanged, applies nothing, and records one failed index per
hunk. -/
theorem applyHunksGo_fail (c : String) (hunks : List Hunk) (i : Nat)
    (h : ∀ hk ∈ hunks, (applyHunkToContent c hk).2 = false) :
    (applyHunksGo c hunks i).1 = c ∧ (applyHunksGo c hunks i).2.1 = [] ∧
      (applyHunksGo c hunks i).2.2.length = hunks.length := by
  induction hunks generalizing i with
  | nil => simp [applyHunksGo]
  | cons hk rest ih =>
    have hfst : (applyHunkToContent c hk).2 = false :=
      h hk (List.mem_cons_self _ _)
    obtain ⟨ih1, ih2, ih3⟩ :=
      ih (i + 1) (fun hk' hm => h hk' (List.mem_cons_of_mem _ hm))
    simp only [applyHunksGo, hfst]
    simp [ih1, ih2, ih3]

/-- Reading after a write: the written path returns the new content, any
other path is untouched. -/
theorem fsLookup_fsWrite (fs : FS) (p c q : String) :
    fsLookup (fsWrite fs p c) q = if q = p then some c else fsLookup fs q := by
  induction fs with
  | nil =>
    by_cases hq : q = p
    · simp [fsWrite, fsLookup, hq]
    · have hpq : ¬(p = q) := fun hh => hq hh.symm
      simp [fsWrite, fsLookup, hpq, hq]
  | cons e t ih =>
    by_cases he : e.1 = p
    · by_cases hq : q = p
      · simp [fsWrite, fsLookup, he, hq]
      · have hpq : ¬(p = q) := fun hh => hq hh.symm
        have heq : ¬(e.1 = q) := by rw [he]; exact hpq
        simp [fsWrite, fsLookup, he, hq, hpq, heq]
    · by_cases hq : q = p
      · subst hq
        simp [fsWrite, fsLookup, he, ih]
      · simp [fsWrite, fsLookup, he, hq, ih]

/-- Claim C2: per-file atomicity and independence — in a two-entry patch
whose first file exists with content `c1` on which every hunk fails, and
whose second (distinct) file exists with content `c2` on which the hunk
loop records no failure, the first file keeps its on-disk content, the
second is written with the loop's final content, and the summary starts
with the `1/2` header line. -/
theorem applyPatch_per_file_atomic
    (fs : FS) (fc1 fc2 : FileChange) (c1 c2 : String)
    (hne : fc1.file_path ≠ fc2.file_path)
    (h1 : fsLookup fs fc1.file_path = some c1)
    (h2 : fsLookup fs fc2.file_path = some c2)
    (hnil : fc1.hunks ≠ [])
    (hfail : ∀ hk ∈ fc1.hunks, (applyHunkToContent c1 hk).2 = false)
    (hok : (applyHunksLoop c2 fc2.hunks).2.2 = []) :
    fsLookup (applyPatchChanges fs [fc1, fc2]).1 fc1.file_path = some c1 ∧
    fsLookup (applyPatchChanges fs [fc1, fc2]).1 fc2.file_path =
      some (applyHunksLoop c2 fc2.hunks).1 ∧
    ∃ rest, (applyPatchChanges fs [fc1, fc2]).2 =
      summaryHeader 1 2 ++ "\n" ++ rest := by
  obtain ⟨hf1, hf2, hf3⟩ := applyHunksGo_fail c1 fc1.hunks 1 hfail
  have hfailne : (applyHunksLoop c1 fc1.hunks).2.2.isEmpty = false := by
    have hnnil : (applyHunksLoop c1 fc1.hunks).2.2 ≠ [] := by
      intro hcon
      rw [applyHunksLoop] at hcon
      rw [hcon] at hf3
      exact hnil (List.length_eq_zero.mp hf3.symm)
    cases hls : (applyHunksLoop c1 fc1.hunks).2.2 with
    | nil => exact absurd hls hnnil
    | cons a b => rfl
  have step1 : applyPatchToFile fs fc1.file_path fc1.hunks =
      (fs, ⟨false, "部分 hunk 应用失败: " ++
        natListRepr (applyHunksLoop c1 fc1.hunks).2.2⟩) := by
    unfold applyPatchToFile
    rw [h1]
    simp [hfailne]
  have step2 : applyPatchToFile fs fc2.file_path fc2.hunks =
      (fsWrite fs fc2.file_path (applyHunksLoop c2 fc2.hunks).1,
        ⟨true, "成功应用补丁到 " ++ fc2.file_path⟩) := by
    unfold applyPatchToFile
    rw [h2]
    simp [hok]
  have hfiles : applyFiles fs [fc1, fc2] =
      (fsWrite fs fc2.file_path (applyHunksLoop c2 fc2.hunks).1,
        [(fc1.file_path, ⟨false, "部分 hunk 应用失败: " ++
            natListRepr (applyHunksLoop c1 fc1.hunks).2.2⟩),
         (fc2.file_path, ⟨true, "成功应用补丁到 " ++ fc2.file_path⟩)]) := by
    simp [applyFiles, step1, step2]
  refine ⟨?_, ?_, ?_⟩
  · simp [applyPatchChanges, hfiles, fsLookup_fsWrite, hne, h1]
  · simp [applyPatchChanges, hfiles, fsLookup_fsWrite]
  · refine ⟨joinLines
      [resultLine fc1.file_path ⟨false, "部分 hunk 应用失败: " ++
          natListRepr (applyHunksLoop c1 fc1.hunks).2.2⟩,
       resultLine fc2.file_path ⟨true, "成功应用补丁到 " ++ fc2.file_path⟩],
      ?_⟩
    simp [applyPatchChanges, hfiles, joinLines, step1, step2]

/-- Witness for C2: a concrete two-file patch where the first file's only
hunk mismatches and the second file's hunk applies; the summary header
reports 1/2 and the first file keeps its content. -/
theorem applyPatch_per_file_atomic_witness :
    fsLookup (applyPatchChanges [("f1", "a"), ("f2", "line1\nline2\nline3")]
      [⟨"f1", [⟨1, 1, 1, 1, [.ctx "ZZZ"]⟩]⟩,
       ⟨"f2", [⟨1, 3, 1, 3,
         [.ctx "line1", .del "line2", .ins "new2", .ctx "line3"]⟩]⟩]).1 "f1" =
      some "a" ∧
    fsLookup (applyPatchChanges [("f1", "a"), ("f2", "line1\nline2\nline3")]
      [⟨"f1", [⟨1, 1, 1, 1, [.ctx "ZZZ"]⟩]⟩,
       ⟨"f2", [⟨1, 3, 1, 3,
         [.ctx "line1", .del "line2", .ins "new2", .ctx "line3"]⟩]⟩]).1 "f2" =
      some "line1\nnew2\nline3" ∧
    ∃ rest, (applyPatchChanges [("f1", "a"), ("f2", "line1\nline2\nline3")]
      [⟨"f1", [⟨1, 1, 1, 1, [.ctx "ZZZ"]⟩]⟩,
       ⟨"f2", [⟨1, 3, 1, 3,
         [.ctx "line1", .del "line2", .ins "new2", .ctx "line3"]⟩]⟩]).2 =
      summaryHeader 1 2 ++ "\n" ++ rest := by
  have h := applyPatch_per_file_atomic
    [("f1", "a"), ("f2", "line1\nline2\nline3")]
    ⟨"f1", [⟨1, 1, 1, 1, [.ctx "ZZZ"]⟩]⟩
    ⟨"f2", [⟨1, 3, 1, 3,
      [.ctx "line1", .del "line2", .ins "new2", .ctx "line3"]⟩]⟩
    "a" "line1\nline2\nline3"
    (by decide) (by decide) (by decide) (by decide) (by decide) (by decide)
  exact ⟨h.1, h.2.1.trans (by decide), h.2.2⟩

/-! ## Claim C7 -/

theorem strToList_append (s t : String) :
    (s ++ t).toList = s.toList ++ t.toList := by
  cases s; cases t; rfl

theorem foldl_append_acc (L : List String) (a : String) :
    List.foldl (· ++ ·) a L = a ++ String.join L := by
  induction L generalizing a with
  | nil =>
    simp only [List.foldl_nil, show String.join [] = "" from rfl,
      String.append_empty]
  | cons b t ih =>
    rw [List.foldl_cons, ih (a ++ b)]
    have hj : String.join (b :: t) = b ++ String.join t := by
      rw [show String.join (b :: t) = List.foldl (· ++ ·) "" (b :: t) from rfl,
        List.foldl_cons, ih ("" ++ b), String.empty_append]
    rw [hj, ← String.append_assoc]

theorem join_cons (a : String) (L : List String) :
    String.join (a :: L) = a ++ String.join L := by
  simp only [String.join, List.foldl_cons, String.empty_append]
  exact foldl_append_acc L a

/-- The accumulated `content += line + '\n'` of apply_patch.py lines 240-243
equals the newline-join of the insert texts followed by one final
newline (empty when there are no insert lines). -/
theorem join_map_newline (T : List String) :
    String.join (T.map (fun t => t ++ "\n")) =
      if T.isEmpty then "" else joinLines T ++ "\n" := by
  induction T with
  | nil => rfl
  | cons x rest ih =>
    rw [List.map_cons, join_cons]
    cases rest with
    | nil => simp [String.join, joinLines, String.append_empty]
    | cons y rs =>
      rw [ih]
      simp [joinLines, String.append_assoc]

theorem rstrip_append_newline (s : String) :
    rstripNewlines (s ++ "\n") = rstripNewlines s := by
  unfold rstripNewlines
  rw [strToList_append]
  rw [show ("\n" : String).toList = ['\n'] from rfl]
  rw [List.reverse_append]
  simp [List.dropWhile_cons]

/-- Counterexample to C7 as stated: a new file whose hunks insert the
texts `"a"`, `""`, `""`.  The code concatenates `"a\n\n\n"` and strips ALL
trailing newlines, writing `"a"`; the claim's join-then-strip-one rule
yields `"a\n"`. -/
theorem newfile_content_counterexample :
    fsLookup (applyPatchToFile [] "n"
      [⟨1, 0, 1, 3, [.ins "a", .ins "", .ins ""]⟩]).1 "n" = some "a" ∧
    stripOneNewline (joinLines (insertTexts
      [⟨1, 0, 1, 3, [.ins "a", .ins "", .ins ""]⟩])) = "a\n" ∧
    ("a" : String) ≠ "a\n" := by
  refine ⟨by decide, by decide, by decide⟩

/-- Claim C7 (amended): when the resolved path does not exist, the written
content is exactly the Insert-tagged line texts across all hunks, in hunk
and line order, joined by newline, with ALL trailing newlines stripped
(the code right-strips every `'\n'`, not just one); the result reports a
successful creation. -/
theorem newfile_content (fs : FS) (path : String) (hunks : List Hunk)
    (h : fsLookup fs path = none) :
    applyPatchToFile fs path hunks =
      (fsWrite fs path (rstripNewlines (joinLines (insertTexts hunks))),
        ⟨true, "成功创建文件 " ++ path⟩) := by
  have key : rstripNewlines (String.join ((insertTexts hunks).map
      (fun t => t ++ "\n"))) = rstripNewlines (joinLines (insertTexts hunks)) := by
    rw [join_map_newline]
    cases hT : insertTexts hunks with
    | nil => rfl
    | cons x rest =>
      simp only [List.isEmpty_cons, if_neg Bool.false_ne_true]
      exact rstrip_append_newline (joinLines (x :: rest))
  unfold applyPatchToFile
  rw [h]
  show (fsWrite fs path (rstripNewlines (String.join ((insertTexts hunks).map
    (fun t => t ++ "\n")))),
    ({ success := true, text := "成功创建文件 " ++ path } : FileResult)) = _
  rw [key]

/-- Witness for the amended C7: a nonexistent file with insert lines `+a`
and `+b` is created with content `"a\nb"` (no trailing newline). -/
theorem newfile_content_witness :
    fsLookup ([] : FS) "n" = none ∧
    applyPatchToFile [] "n" [⟨1, 0, 1, 2, [.ins "a", .ins "b"]⟩] =
      ([("n", "a\nb")], ⟨true, "成功创建文件 n"⟩) :=
  ⟨rfl, (newfile_content [] "n" [⟨1, 0, 1, 2, [.ins "a", .ins "b"]⟩]
    rfl).trans (by decide)⟩

/-! ## Claim C8 -/

/-- If some edit has `old_string = new_string`, the `old != new` pass
reports a violation. -/
theorem oldNewCheck_isSome (edits : List EditOp) (s i : Nat)
    (hi : i < edits.length)
    (heq : (edits.get ⟨i, hi⟩).old_string = (edits.get ⟨i, hi⟩).new_string) :
    (oldNewCheck edits s).isSome := by
  induction edits generalizing s i with
  | nil => exact absurd hi (by simp)
  | cons e rest ih =>
    cases i with
    | zero =>
      have he : e.old_string = e.new_string := heq
      simp [oldNewCheck, he]
    | succ n =>
      by_cases he : e.old_string = e.new_string
      · simp [oldNewCheck, he]
      · simp only [oldNewCheck, if_neg he]
        exact ih (s + 1) n (by simpa using hi) (by simpa using heq)

/-- A validation pass that succeeds implies the `old != new` pass found no
violation. -/
theorem validateInput_valid_oldNew (fs : FS) (path : String)
    (edits : List EditOp) (h : (validateInput fs path edits).valid = true) :
    oldNewCheck edits 0 = none := by
  unfold validateInput at h
  split at h
  · exact absurd h (by simp)
  split at h
  · exact absurd h (by simp)
  split at h
  · split at h
    · exact absurd h (by simp)
    · unfold vFinal at h
      split at h
      · exact absurd h (by simp)
      · assumption
  · split at h
    · exact absurd h (by simp)
    · split at h
      · exact absurd h (by simp)
      · unfold vFinal at h
        split at h
        · exact absurd h (by simp)
        · assumption

/-- Claim C8: a multi-edit batch containing any edit with
`old_string = new_string` (at any position) is rejected by the validation
pass, and `multi_edit` returns the error message with the filesystem (the
target file included) unmodified. -/
theorem multiEdit_rejects_equal_strings (fs : FS) (path : String)
    (edits : List EditOp) (i : Nat) (hi : i < edits.length)
    (heq : (edits.get ⟨i, hi⟩).old_string = (edits.get ⟨i, hi⟩).new_string) :
    (validateInput fs path edits).valid = false ∧
    multiEdit fs path edits =
      (fs, "错误: " ++ (validateInput fs path edits).message) := by
  have hsome := oldNewCheck_isSome edits 0 i hi heq
  have hval : (validateInput fs path edits).valid = false := by
    cases hv : (validateInput fs path edits).valid
    · rfl
    · exfalso
      rw [validateInput_valid_oldNew fs path edits hv] at hsome
      simp at hsome
  refine ⟨hval, ?_⟩
  unfold multiEdit
  simp [hval]

/-- Witness for C8: a single-edit batch with `old = new = "a"` against an
existing file is rejected. -/
theorem multiEdit_rejects_equal_strings_witness :
    (validateInput [("f", "abc")] "f" [⟨"a", "a", false⟩]).valid = false ∧
    multiEdit [("f", "abc")] "f" [⟨"a", "a", false⟩] =
      ([("f", "abc")],
        "错误: " ++ (validateInput [("f", "abc")] "f" [⟨"a", "a", false⟩]).message) :=
  multiEdit_rejects_equal_strings [("f", "abc")] "f" [⟨"a", "a", false⟩] 0
    (by decide) (by decide)

/-! ## Claim C10 -/

theorem strContainsGo_nil_needle (l : List Char) : strContainsGo [] l = true := by
  cases l <;> simp [strContainsGo, List.isPrefixOf]

theorem strMk_append (a b : String) :
    String.mk (a.toList ++ b.toList) = a ++ b := by
  cases a; cases b; rfl

/-- The single-replacement path on an empty `old_string`: `old in content`
is always true and `content.replace('', new, 1)` prepends `new`. -/
theorem applyContentEdit_empty_old (cur new : String) :
    applyContentEdit cur "" new false = .ok (new ++ cur, 1) := by
  unfold applyContentEdit
  simp [strContainsGo_nil_needle, replaceOnce]
  exact strMk_append new cur

/-- Claim C10: an edit with empty `old_string` and non-empty `new_string`
on an existing non-binary file passes validation (the substring check is
skipped for empty `old_string`), and with `replace_all = false` its
application inserts `new_string` at the very beginning of the current
content with a reported occurrence count of 1; `multi_edit` on the
singleton batch writes `new ++ c`. -/
theorem multiEdit_empty_old_insert (fs : FS) (path c new : String)
    (hpath : strEnds path ".ipynb" = false)
    (hex : fsLookup fs path = some c)
    (hbin : isBinaryContent c = false)
    (hnew : new ≠ "") :
    (validateInput fs path [⟨"", new, false⟩]).valid = true ∧
    (∀ cur : String, applyContentEdit cur "" new false = .ok (new ++ cur, 1)) ∧
    multiEdit fs path [⟨"", new, false⟩] =
      (fsWrite fs path (new ++ c),
        "成功对 " ++ path ++ " 应用了 1 个编辑操作\n编辑 1: 替换了 1 处匹配") := by
  have hne : ¬(("" : String) = new) := fun hh => hnew hh.symm
  have hval : (validateInput fs path [⟨"", new, false⟩]).valid = true := by
    simp [validateInput, hpath, hex, hbin, membershipCheck, vFinal,
      oldNewCheck, hne]
  refine ⟨hval, fun cur => applyContentEdit_empty_old cur new, ?_⟩
  unfold multiEdit
  simp [hval, hex, applyEditsLoop, applyContentEdit_empty_old, editDetails,
    joinLines]
  simp only [show toString (1 : Nat) = "1" from rfl, String.append_assoc]
  congr 1

/-- Witness for C10: inserting `"X"` at the start of `"abc"`. -/
theorem multiEdit_empty_old_insert_witness :
    (validateInput [("f", "abc")] "f" [⟨"", "X", false⟩]).valid = true ∧
    applyContentEdit "abc" "" "X" false = .ok ("Xabc", 1) ∧
    multiEdit [("f", "abc")] "f" [⟨"", "X", false⟩] =
      ([("f", "Xabc")], "成功对 f 应用了 1 个编辑操作\n编辑 1: 替换了 1 处匹配") := by
  have h := multiEdit_empty_old_insert [("f", "abc")] "f" "abc" "X"
    (by decide) (by decide) (by decide) (by decide)
  exact ⟨h.1, (h.2.1 "abc").trans rfl, h.2.2.trans (by decide)⟩

/-! ## Claim C6 -/

/-- If some edit's non-empty `old_string` does not occur in the original
content, the membership pass reports a violation. -/
theorem membershipCheck_isSome (content : String) (edits : List EditOp)
    (s i : Nat) (hi : i < edits.length)
    (hne : (edits.get ⟨i, hi⟩).old_string ≠ "")
    (hnotin : strContainsGo (edits.get ⟨i, hi⟩).old_string.toList
      content.toList = false) :
    (membershipCheck content edits s).isSome := by
  induction edits generalizing s i with
  | nil => exact absurd hi (by simp)
  | cons e rest ih =>
    cases i with
    | zero =>
      have h1 : e.old_string ≠ "" := hne
      have h2 : strContainsGo e.old_string.data content.data = false := hnotin
      have hcond : (e.old_string != "" &&
          !(strContainsGo e.old_string.toList content.toList)) = true := by
        simp [h1, h2]
      simp only [membershipCheck]
      rw [hcond]
      simp
    | succ n =>
      cases hc : (e.old_string != "" &&
          !(strContainsGo e.old_string.toList content.toList)) with
      | true =>
        simp only [membershipCheck]
        rw [hc]
        simp
      | false =>
        simp only [membershipCheck]
        rw [hc]
        simp only [Bool.false_eq_true, if_false]
        exact ih (s + 1) n (by simpa using hi) (by simpa using hne)
          (by simpa using hnotin)

/-- Claim C6 (amended): pre-validation checks `old_string` membership only
against the original file content, so a batch in which some edit's
non-empty `old_string` is missing from the original content — for example
one that exists only in the output of an earlier edit — IS rejected by the
validation pass, and `multi_edit` returns the validation error with the
filesystem unmodified (it never reaches apply time). -/
theorem multiEdit_rejects_unseen_old (fs : FS) (path c : String)
    (edits : List EditOp) (i : Nat)
    (hpath : strEnds path ".ipynb" = false)
    (hex : fsLookup fs path = some c)
    (hbin : isBinaryContent c = false)
    (hi : i < edits.length)
    (hne : (edits.get ⟨i, hi⟩).old_string ≠ "")
    (hnotin : strContainsGo (edits.get ⟨i, hi⟩).old_string.toList
      c.toList = false) :
    (validateInput fs path edits).valid = false ∧
    multiEdit fs path edits =
      (fs, "错误: " ++ (validateInput fs path edits).message) := by
  have hsome := membershipCheck_isSome c edits 0 i hi hne hnotin
  obtain ⟨m, hm⟩ := Option.isSome_iff_exists.mp hsome
  have hemp : edits.isEmpty = false := by
    cases edits
    · exact absurd hi (by simp)
    · rfl
  have hval : (validateInput fs path edits).valid = false := by
    simp [validateInput, hemp, hpath, hex, hbin, hm]
  refine ⟨hval, ?_⟩
  unfold multiEdit
  simp [hval]

/-- Counterexample to C6 as stated: on original content `"abc"`, the batch
`[abc→xyz, xyz→q]` has a second edit whose `old_string` `"xyz"` exists
only in the output of the first edit; the claim says the batch is not
rejected by validation and succeeds, but validation rejects it (edit 2 not
found in the file) and the file is left unchanged. -/
theorem multiEdit_rejects_unseen_old_counterexample :
    (validateInput [("f", "abc")] "f"
      [⟨"abc", "xyz", false⟩, ⟨"xyz", "q", false⟩]).valid = false ∧
    multiEdit [("f", "abc")] "f"
      [⟨"abc", "xyz", false⟩, ⟨"xyz", "q", false⟩] =
      ([("f", "abc")], "错误: 编辑 2: 要替换的字符串在文件中未找到: \"xyz\"") := by
  refine ⟨by decide, by decide⟩

/-- Witness for the amended C6 at the counterexample's input. -/
theorem multiEdit_rejects_unseen_old_witness :
    (validateInput [("g", "ab")] "g"
      [⟨"ab", "uv", false⟩, ⟨"uv", "w", false⟩]).valid = false ∧
    multiEdit [("g", "ab")] "g" [⟨"ab", "uv", false⟩, ⟨"uv", "w", false⟩] =
      ([("g", "ab")], "错误: " ++ (validateInput [("g", "ab")] "g"
        [⟨"ab", "uv", false⟩, ⟨"uv", "w", false⟩]).message) :=
  multiEdit_rejects_unseen_old [("g", "ab")] "g" "ab"
    [⟨"ab", "uv", false⟩, ⟨"uv", "w", false⟩] 1
    (by decide) (by decide) (by decide) (by decide) (by decide) (by decide)

/-! ## Claim C5 -/

/-- Claim C5 (code bug): on the claim's own example the replace-all edit
behaves as specified (`"x x x"`, `x→y` gives `"y y y"` with count 3), but
`new_string` is NOT inserted verbatim for every string: `re.sub` treats it
as a replacement template, so the two-character `new_string` backslash-n
becomes a single newline character, diverging from the claimed literal
insertion. -/
theorem replaceAll_template_divergence :
    applyContentEdit "x x x" "x" "y" true = .ok ("y y y", 3) ∧
    applyContentEdit "x" "x" "\\n" true = .ok ("\n", 1) ∧
    ("\n" : String) ≠ "\\n" :=
  ⟨rfl, rfl, by decide⟩

/-! ## Equivalence of the literal loop transcription and the state machine

The chain `parseGo_body` / `parseGo_mid` / `parseGo_outer` relates each of
the three loops of `parseOrig` to the corresponding state of the machine,
culminating in `parseOrig_eq_parseUnifiedDiff`. -/

theorem bodyLoop_ge (ls : List String) (i : Nat) (acc : List LineOp) :
    i ≤ (bodyLoop ls i acc).2 := by
  have main : ∀ n i acc, ls.length - i ≤ n → i ≤ (bodyLoop ls i acc).2 := by
    intro n
    induction n with
    | zero =>
      intro i acc hn
      rw [bodyLoop, dif_neg (by omega)]
    | succ n ih =>
      intro i acc hn
      rw [bodyLoop]
      by_cases h : i < ls.length
      · rw [dif_pos h]
        simp only []
        have hrec : ∀ acc2 : List LineOp, i ≤ (bodyLoop ls (i + 1) acc2).2 := by
          intro acc2
          have hh := ih (i + 1) acc2 (by omega)
          omega
        split
        · exact Nat.le.refl
        · split
          · exact hrec _
          · split
            · exact hrec _
            · split
              · exact hrec _
              · split
                · exact hrec _
                · split
                  · exact hrec _
                  · exact Nat.le.refl
      · rw [dif_neg h]
  exact main ls.length i acc (Nat.sub_le _ _)

theorem midLoop_ge (ls : List String) (i : Nat) (hs : List Hunk) :
    i ≤ (midLoop ls i hs).2 := by
  have main : ∀ n i hs, ls.length - i ≤ n → i ≤ (midLoop ls i hs).2 := by
    intro n
    induction n with
    | zero =>
      intro i hs hn
      rw [midLoop, dif_neg (by omega)]
    | succ n ih =>
      intro i hs hn
      rw [midLoop]
      by_cases h : i < ls.length
      · rw [dif_pos h]
        simp only []
        split
        · split
          · refine le_trans ?_ (ih _ _ ?_) <;> omega
          · refine le_trans ?_ (ih _ _ ?_) <;> omega
        · split
          · exact Nat.le.refl
          · split
            · exact Nat.le_succ i
            · split
              · exact Nat.le_succ i
              · refine le_trans ?_ (ih _ _ ?_) <;> omega
      · rw [dif_neg h]
  exact main ls.length i hs (Nat.sub_le _ _)

theorem drop_getD_cons (ls : List String) (i : Nat) (h : i < ls.length) :
    ls.drop i = ls.getD i "" :: ls.drop (i + 1) := by
  rw [List.drop_eq_getElem_cons h, List.getD_eq_getElem ls "" h]

theorem starts_dashes_not_at (l : String) (h : strStarts l "--- " = true) :
    strStarts l "@@ " = false := by
  have e1 : ("--- " : String).toList = ['-', '-', '-', ' '] := rfl
  have e2 : ("@@ " : String).toList = ['@', '@', ' '] := rfl
  simp only [strStarts, e1, e2] at h ⊢
  cases hl : l.toList with
  | nil => rw [hl] at h; exact absurd h (by decide)
  | cons c cs =>
    rw [hl] at h
    have h' : (('-' == c) && List.isPrefixOf ['-', '-', ' '] cs) = true := h
    have h1 : c = '-' := by
      have hb := (Bool.and_eq_true _ _).mp h' |>.1
      exact (beq_iff_eq.mp hb).symm
    subst h1
    rfl

theorem isEmpty_append_singleton {α : Type} (xs : List α) (x : α) :
    (xs ++ [x]).isEmpty = false := by cases xs <;> rfl

theorem parseGo_nil (st : PState) : parseGo st [] = finalizeState st := rfl

theorem parseGo_cons (st : PState) (l : String) (rest : List String) :
    parseGo st (l :: rest) =
      (parseStep st l).2 ++ parseGo (parseStep st l).1 rest := rfl

theorem pstep_hunk_dash (p : String) (hs : List Hunk) (hdr : Nat × Nat × Nat × Nat)
    (acc : List LineOp) (l : String) (h1 : strStarts l "--- " = true) :
    parseStep (.inHunk p hs hdr acc) l =
      (.expectNew (procOldPath l), [⟨p, hs ++ [mkHunk hdr acc]⟩]) := by
  simp [parseStep, h1]

theorem pstep_hunk_at_some (p : String) (hs : List Hunk) (hdr hdr2 : Nat × Nat × Nat × Nat)
    (acc : List LineOp) (l : String) (h1 : strStarts l "--- " = false)
    (h2 : strStarts l "@@ " = true) (hph : parseHunkHeader l = some hdr2) :
    parseStep (.inHunk p hs hdr acc) l =
      (.inHunk p (hs ++ [mkHunk hdr acc]) hdr2 [], []) := by
  simp [parseStep, h1, h2, hph]

theorem pstep_hunk_at_none (p : String) (hs : List Hunk) (hdr : Nat × Nat × Nat × Nat)
    (acc : List LineOp) (l : String) (h1 : strStarts l "--- " = false)
    (h2 : strStarts l "@@ " = true) (hph : parseHunkHeader l = none) :
    parseStep (.inHunk p hs hdr acc) l =
      (.inFile p (hs ++ [mkHunk hdr acc]), []) := by
  simp [parseStep, h1, h2, hph]

theorem pstep_hunk_bs (p : String) (hs : List Hunk) (hdr : Nat × Nat × Nat × Nat)
    (acc : List LineOp) (l : String) (h1 : strStarts l "--- " = false)
    (h2 : strStarts l "@@ " = false) (h3 : strStarts l "\\" = true) :
    parseStep (.inHunk p hs hdr acc) l = (.inHunk p hs hdr acc, []) := by
  simp [parseStep, h1, h2, h3]

theorem pstep_hunk_sp (p : String) (hs : List Hunk) (hdr : Nat × Nat × Nat × Nat)
    (acc : List LineOp) (l : String) (h1 : strStarts l "--- " = false)
    (h2 : strStarts l "@@ " = false) (h3 : strStarts l "\\" = false)
    (h4 : strStarts l " " = true) :
    parseStep (.inHunk p hs hdr acc) l =
      (.inHunk p hs hdr (acc ++ [.ctx (strDrop l 1)]), []) := by
  simp [parseStep, h1, h2, h3, h4]

theorem pstep_hunk_del (p : String) (hs : List Hunk) (hdr : Nat × Nat × Nat × Nat)
    (acc : List LineOp) (l : String) (h1 : strStarts l "--- " = false)
    (h2 : strStarts l "@@ " = false) (h3 : strStarts l "\\" = false)
    (h4 : strStarts l " " = false) (h5 : strStarts l "-" = true) :
    parseStep (.inHunk p hs hdr acc) l =
      (.inHunk p hs hdr (acc ++ [.del (strDrop l 1)]), []) := by
  simp [parseStep, h1, h2, h3, h4, h5]

theorem pstep_hunk_ins (p : String) (hs : List Hunk) (hdr : Nat × Nat × Nat × Nat)
    (acc : List LineOp) (l : String) (h1 : strStarts l "--- " = false)
    (h2 : strStarts l "@@ " = false) (h3 : strStarts l "\\" = false)
    (h4 : strStarts l " " = false) (h5 : strStarts l "-" = false)
    (h6 : strStarts l "+" = true) :
    parseStep (.inHunk p hs hdr acc) l =
      (.inHunk p hs hdr (acc ++ [.ins (strDrop l 1)]), []) := by
  simp [parseStep, h1, h2, h3, h4, h5, h6]

theorem pstep_hunk_empty (p : String) (hs : List Hunk) (hdr : Nat × Nat × Nat × Nat)
    (acc : List LineOp) (l : String) (h1 : strStarts l "--- " = false)
    (h2 : strStarts l "@@ " = false) (h3 : strStarts l "\\" = false)
    (h4 : strStarts l " " = false) (h5 : strStarts l "-" = false)
    (h6 : strStarts l "+" = false) (h7 : l = "") :
    parseStep (.inHunk p hs hdr acc) l =
      (.inHunk p hs hdr (acc ++ [.ctx ""]), []) := by
  subst h7; rfl

theorem pstep_hunk_other (p : String) (hs : List Hunk) (hdr : Nat × Nat × Nat × Nat)
    (acc : List LineOp) (l : String) (h1 : strStarts l "--- " = false)
    (h2 : strStarts l "@@ " = false) (h3 : strStarts l "\\" = false)
    (h4 : strStarts l " " = false) (h5 : strStarts l "-" = false)
    (h6 : strStarts l "+" = false) (h7 : ¬ l = "") :
    parseStep (.inHunk p hs hdr acc) l = (.inFile p (hs ++ [mkHunk hdr acc]), []) := by
  simp [parseStep, h1, h2, h3, h4, h5, h6, h7]

theorem pstep_file_at_some (p : String) (hs : List Hunk) (hdr2 : Nat × Nat × Nat × Nat)
    (l : String) (h2 : strStarts l "@@ " = true)
    (hph : parseHunkHeader l = some hdr2) :
    parseStep (.inFile p hs) l = (.inHunk p hs hdr2 [], []) := by
  simp [parseStep, h2, hph]

theorem pstep_file_at_none (p : String) (hs : List Hunk) (l : String)
    (h2 : strStarts l "@@ " = true) (hph : parseHunkHeader l = none) :
    parseStep (.inFile p hs) l = (.inFile p hs, []) := by
  simp [parseStep, h2, hph]

theorem pstep_file_dash (p : String) (hs : List Hunk) (l : String)
    (h2 : strStarts l "@@ " = false) (h1 : strStarts l "--- " = true) :
    parseStep (.inFile p hs) l =
      (.expectNew (procOldPath l), if hs.isEmpty then [] else [⟨p, hs⟩]) := by
  simp [parseStep, h1, h2]

theorem pstep_file_other (p : String) (hs : List Hunk) (l : String)
    (h2 : strStarts l "@@ " = false) (h1 : strStarts l "--- " = false) :
    parseStep (.inFile p hs) l = (.inFile p hs, []) := by
  simp [parseStep, h1, h2]

theorem pstep_scan_dash (l : String) (h1 : strStarts l "--- " = true) :
    parseStep .scan l = (.expectNew (procOldPath l), []) := by
  simp [parseStep, h1]

theorem pstep_scan_other (l : String) (h1 : strStarts l "--- " = false) :
    parseStep .scan l = (.scan, []) := by
  simp [parseStep, h1]

theorem pstep_expect_pp (old l : String) (h : strStarts l "+++ " = true) :
    parseStep (.expectNew old) l =
      (if (if procNewPath l ≠ "/dev/null" then procNewPath l else old) = "/dev/null"
        then .scan
        else .inFile (if procNewPath l ≠ "/dev/null" then procNewPath l else old) [],
       []) := by
  simp [parseStep, h]
  split <;> first | rfl | (split <;> rfl)

theorem pstep_expect_other (old l : String) (h : strStarts l "+++ " = false) :
    parseStep (.expectNew old) l = (.scan, []) := by
  simp [parseStep, h]

theorem parseGo_body (ls : List String) (p : String) (hdr : Nat × Nat × Nat × Nat)
    (hs : List Hunk) :
    ∀ i acc,
    parseGo (PState.inHunk p hs hdr acc) (ls.drop i) =
      parseGo (PState.inFile p (hs ++ [mkHunk hdr (bodyLoop ls i acc).1]))
        (ls.drop (bodyLoop ls i acc).2) := by
  intro i acc
  induction i, acc using bodyLoop.induct ls with
  | case1 i acc hlt line hcond =>
    have hc : (strStarts (ls.getD i "") "--- " || strStarts (ls.getD i "") "@@ ") = true :=
      hcond
    have hdrop := drop_getD_cons ls i hlt
    rw [bodyLoop, dif_pos hlt]
    simp only []
    rw [if_pos hc]
    show parseGo (PState.inHunk p hs hdr acc) (ls.drop i) =
      parseGo (PState.inFile p (hs ++ [mkHunk hdr acc])) (ls.drop i)
    rw [hdrop, parseGo_cons, parseGo_cons]
    by_cases h1 : strStarts (ls.getD i "") "--- " = true
    · have h2 := starts_dashes_not_at _ h1
      rw [pstep_hunk_dash _ _ _ _ _ h1, pstep_file_dash _ _ _ h2 h1,
          isEmpty_append_singleton]
      simp
    · have h2 : strStarts (ls.getD i "") "@@ " = true := by
        rcases Bool.or_eq_true _ _ |>.mp hc with h' | h'
        · exact absurd h' h1
        · exact h'
      have h1' : strStarts (ls.getD i "") "--- " = false := Bool.eq_false_iff.mpr h1
      cases hph : parseHunkHeader (ls.getD i "") with
      | some hdr2 =>
        rw [pstep_hunk_at_some _ _ _ _ _ _ h1' h2 hph, pstep_file_at_some _ _ _ _ h2 hph]
      | none =>
        rw [pstep_hunk_at_none _ _ _ _ _ h1' h2 hph, pstep_file_at_none _ _ _ h2 hph]
  | case2 i acc hlt line hor hbs ih =>
    have h12 := Bool.or_eq_false_iff.mp (Bool.eq_false_iff.mpr hor)
    have h1 : strStarts (ls.getD i "") "--- " = false := h12.1
    have h2 : strStarts (ls.getD i "") "@@ " = false := h12.2
    have h3 : strStarts (ls.getD i "") "\\" = true := hbs
    have hne1 : ¬ (strStarts (ls.getD i "") "--- " || strStarts (ls.getD i "") "@@ ") = true := by
      rw [h1, h2]; decide
    have hdrop := drop_getD_cons ls i hlt
    rw [bodyLoop, dif_pos hlt]
    simp only []
    rw [if_neg hne1, if_pos h3]
    rw [hdrop, parseGo_cons, pstep_hunk_bs _ _ _ _ _ h1 h2 h3]
    simp only [List.nil_append]
    exact ih
  | case3 i acc hlt line hor hbs hsp ih =>
    have h12 := Bool.or_eq_false_iff.mp (Bool.eq_false_iff.mpr hor)
    have h1 : strStarts (ls.getD i "") "--- " = false := h12.1
    have h2 : strStarts (ls.getD i "") "@@ " = false := h12.2
    have h3 : strStarts (ls.getD i "") "\\" = false := Bool.eq_false_iff.mpr hbs
    have h4 : strStarts (ls.getD i "") " " = true := hsp
    have hne1 : ¬ (strStarts (ls.getD i "") "--- " || strStarts (ls.getD i "") "@@ ") = true := by
      rw [h1, h2]; decide
    have hne3 : ¬ strStarts (ls.getD i "") "\\" = true := by rw [h3]; decide
    have hdrop := drop_getD_cons ls i hlt
    have hline : line = ls.getD i "" := rfl
    rw [hline] at ih
    rw [bodyLoop, dif_pos hlt]
    simp only []
    rw [if_neg hne1, if_neg hne3, if_pos h4]
    rw [hdrop, parseGo_cons, pstep_hunk_sp _ _ _ _ _ h1 h2 h3 h4]
    simp only [List.nil_append]
    exact ih
  | case4 i acc hlt line hor hbs hsp hdl ih =>
    have h12 := Bool.or_eq_false_iff.mp (Bool.eq_false_iff.mpr hor)
    have h1 : strStarts (ls.getD i "") "--- " = false := h12.1
    have h2 : strStarts (ls.getD i "") "@@ " = false := h12.2
    have h3 : strStarts (ls.getD i "") "\\" = false := Bool.eq_false_iff.mpr hbs
    have h4 : strStarts (ls.getD i "") " " = false := Bool.eq_false_iff.mpr hsp
    have h5 : strStarts (ls.getD i "") "-" = true := hdl
    have hne1 : ¬ (strStarts (ls.getD i "") "--- " || strStarts (ls.getD i "") "@@ ") = true := by
      rw [h1, h2]; decide
    have hne3 : ¬ strStarts (ls.getD i "") "\\" = true := by rw [h3]; decide
    have hne4 : ¬ strStarts (ls.getD i "") " " = true := by rw [h4]; decide
    have hdrop := drop_getD_cons ls i hlt
    have hline : line = ls.getD i "" := rfl
    rw [hline] at ih
    rw [bodyLoop, dif_pos hlt]
    simp only []
    rw [if_neg hne1, if_neg hne3, if_neg hne4, if_pos h5]
    rw [hdrop, parseGo_cons, pstep_hunk_del _ _ _ _ _ h1 h2 h3 h4 h5]
    simp only [List.nil_append]
    exact ih
  | case5 i acc hlt line hor hbs hsp hdl hin ih =>
    have h12 := Bool.or_eq_false_iff.mp (Bool.eq_false_iff.mpr hor)
    have h1 : strStarts (ls.getD i "") "--- " = false := h12.1
    have h2 : strStarts (ls.getD i "") "@@ " = false := h12.2
    have h3 : strStarts (ls.getD i "") "\\" = false := Bool.eq_false_iff.mpr hbs
    have h4 : strStarts (ls.getD i "") " " = false := Bool.eq_false_iff.mpr hsp
    have h5 : strStarts (ls.getD i "") "-" = false := Bool.eq_false_iff.mpr hdl
    have h6 : strStarts (ls.getD i "") "+" = true := hin
    have hne1 : ¬ (strStarts (ls.getD i "") "--- " || strStarts (ls.getD i "") "@@ ") = true := by
      rw [h1, h2]; decide
    have hne3 : ¬ strStarts (ls.getD i "") "\\" = true := by rw [h3]; decide
    have hne4 : ¬ strStarts (ls.getD i "") " " = true := by rw [h4]; decide
    have hne5 : ¬ strStarts (ls.getD i "") "-" = true := by rw [h5]; decide
    have hdrop := drop_getD_cons ls i hlt
    have hline : line = ls.getD i "" := rfl
    rw [hline] at ih
    rw [bodyLoop, dif_pos hlt]
    simp only []
    rw [if_neg hne1, if_neg hne3, if_neg hne4, if_neg hne5, if_pos h6]
    rw [hdrop, parseGo_cons, pstep_hunk_ins _ _ _ _ _ h1 h2 h3 h4 h5 h6]
    simp only [List.nil_append]
    exact ih
  | case6 i acc hlt line hor hbs hsp hdl hin hemp ih =>
    have h12 := Bool.or_eq_false_iff.mp (Bool.eq_false_iff.mpr hor)
    have h1 : strStarts (ls.getD i "") "--- " = false := h12.1
    have h2 : strStarts (ls.getD i "") "@@ " = false := h12.2
    have h3 : strStarts (ls.getD i "") "\\" = false := Bool.eq_false_iff.mpr hbs
    have h4 : strStarts (ls.getD i "") " " = false := Bool.eq_false_iff.mpr hsp
    have h5 : strStarts (ls.getD i "") "-" = false := Bool.eq_false_iff.mpr hdl
    have h6 : strStarts (ls.getD i "") "+" = false := Bool.eq_false_iff.mpr hin
    have h7 : ls.getD i "" = "" := hemp
    have hne1 : ¬ (strStarts (ls.getD i "") "--- " || strStarts (ls.getD i "") "@@ ") = true := by
      rw [h1, h2]; decide
    have hne3 : ¬ strStarts (ls.getD i "") "\\" = true := by rw [h3]; decide
    have hne4 : ¬ strStarts (ls.getD i "") " " = true := by rw [h4]; decide
    have hne5 : ¬ strStarts (ls.getD i "") "-" = true := by rw [h5]; decide
    have hne6 : ¬ strStarts (ls.getD i "") "+" = true := by rw [h6]; decide
    have hdrop := drop_getD_cons ls i hlt
    rw [bodyLoop, dif_pos hlt]
    simp only []
    rw [if_neg hne1, if_neg hne3, if_neg hne4, if_neg hne5, if_neg hne6, if_pos h7]
    rw [hdrop, parseGo_cons, pstep_hunk_empty _ _ _ _ _ h1 h2 h3 h4 h5 h6 h7]
    simp only [List.nil_append]
    exact ih
  | case7 i acc hlt line hor hbs hsp hdl hin hemp =>
    have h12 := Bool.or_eq_false_iff.mp (Bool.eq_false_iff.mpr hor)
    have h1 : strStarts (ls.getD i "") "--- " = false := h12.1
    have h2 : strStarts (ls.getD i "") "@@ " = false := h12.2
    have h3 : strStarts (ls.getD i "") "\\" = false := Bool.eq_false_iff.mpr hbs
    have h4 : strStarts (ls.getD i "") " " = false := Bool.eq_false_iff.mpr hsp
    have h5 : strStarts (ls.getD i "") "-" = false := Bool.eq_false_iff.mpr hdl
    have h6 : strStarts (ls.getD i "") "+" = false := Bool.eq_false_iff.mpr hin
    have h7 : ¬ ls.getD i "" = "" := hemp
    have hne1 : ¬ (strStarts (ls.getD i "") "--- " || strStarts (ls.getD i "") "@@ ") = true := by
      rw [h1, h2]; decide
    have hne3 : ¬ strStarts (ls.getD i "") "\\" = true := by rw [h3]; decide
    have hne4 : ¬ strStarts (ls.getD i "") " " = true := by rw [h4]; decide
    have hne5 : ¬ strStarts (ls.getD i "") "-" = true := by rw [h5]; decide
    have hne6 : ¬ strStarts (ls.getD i "") "+" = true := by rw [h6]; decide
    have hdrop := drop_getD_cons ls i hlt
    rw [bodyLoop, dif_pos hlt]
    simp only []
    rw [if_neg hne1, if_neg hne3, if_neg hne4, if_neg hne5, if_neg hne6, if_neg h7]
    show parseGo (PState.inHunk p hs hdr acc) (ls.drop i) =
      parseGo (PState.inFile p (hs ++ [mkHunk hdr acc])) (ls.drop i)
    rw [hdrop, parseGo_cons, parseGo_cons, pstep_hunk_other _ _ _ _ _ h1 h2 h3 h4 h5 h6 h7,
        pstep_file_other _ _ _ h2 h1]
  | case8 i acc hlt =>
    rw [bodyLoop, dif_neg hlt]
    show parseGo (PState.inHunk p hs hdr acc) (ls.drop i) =
      parseGo (PState.inFile p (hs ++ [mkHunk hdr acc])) (ls.drop i)
    rw [List.drop_eq_nil_of_le (by omega), parseGo_nil, parseGo_nil]
    simp [finalizeState, isEmpty_append_singleton]

theorem midLoop_at_some (ls : List String) (i : Nat) (hunks : List Hunk)
    (hdr : Nat × Nat × Nat × Nat) (hlt : i < ls.length)
    (hat : strStarts (ls.getD i "") "@@ " = true)
    (hph : parseHunkHeader (ls.getD i "") = some hdr) :
    midLoop ls i hunks =
      midLoop ls (max (bodyLoop ls (i + 1) []).2 (i + 1))
        (hunks ++ [mkHunk hdr (bodyLoop ls (i + 1) []).1]) := by
  rw [midLoop, dif_pos hlt]
  simp only []
  rw [if_pos hat, hph]

theorem midLoop_at_none (ls : List String) (i : Nat) (hunks : List Hunk)
    (hlt : i < ls.length) (hat : strStarts (ls.getD i "") "@@ " = true)
    (hph : parseHunkHeader (ls.getD i "") = none) :
    midLoop ls i hunks = midLoop ls (i + 1) hunks := by
  rw [midLoop, dif_pos hlt]
  simp only []
  rw [if_pos hat, hph]

theorem midLoop_dash (ls : List String) (i : Nat) (hunks : List Hunk)
    (hlt : i < ls.length) (hat : ¬ strStarts (ls.getD i "") "@@ " = true)
    (hdash : strStarts (ls.getD i "") "--- " = true) :
    midLoop ls i hunks = (hunks, i) := by
  rw [midLoop, dif_pos hlt]
  simp only []
  rw [if_neg hat, if_pos hdash]

theorem midLoop_eof (ls : List String) (i : Nat) (hunks : List Hunk)
    (hge : ¬ i < ls.length) : midLoop ls i hunks = (hunks, i) := by
  rw [midLoop, dif_neg hge]

theorem midLoop_peek_eof (ls : List String) (i : Nat) (hunks : List Hunk)
    (hlt : i < ls.length) (hat : ¬ strStarts (ls.getD i "") "@@ " = true)
    (hdash : ¬ strStarts (ls.getD i "") "--- " = true)
    (hge : i + 1 ≥ ls.length) :
    midLoop ls i hunks = (hunks, i + 1) := by
  rw [midLoop, dif_pos hlt]
  simp only []
  rw [if_neg hat, if_neg hdash, if_pos hge]

theorem midLoop_peek_dash (ls : List String) (i : Nat) (hunks : List Hunk)
    (hlt : i < ls.length) (hat : ¬ strStarts (ls.getD i "") "@@ " = true)
    (hdash : ¬ strStarts (ls.getD i "") "--- " = true)
    (hge : ¬ i + 1 ≥ ls.length)
    (hpk : strStarts (ls.getD (i + 1) "") "--- " = true) :
    midLoop ls i hunks = (hunks, i + 1) := by
  rw [midLoop, dif_pos hlt]
  simp only []
  rw [if_neg hat, if_neg hdash, if_neg hge, if_pos hpk]

theorem midLoop_step (ls : List String) (i : Nat) (hunks : List Hunk)
    (hlt : i < ls.length) (hat : ¬ strStarts (ls.getD i "") "@@ " = true)
    (hdash : ¬ strStarts (ls.getD i "") "--- " = true)
    (hge : ¬ i + 1 ≥ ls.length)
    (hpk : ¬ strStarts (ls.getD (i + 1) "") "--- " = true) :
    midLoop ls i hunks = midLoop ls (i + 1) hunks := by
  rw [midLoop, dif_pos hlt]
  simp only []
  rw [if_neg hat, if_neg hdash, if_neg hge, if_neg hpk]

theorem parseGo_mid (ls : List String) (p : String) :
    ∀ i hs,
    parseGo (PState.inFile p hs) (ls.drop i) =
      (if (midLoop ls i hs).1.isEmpty then []
        else [(⟨p, (midLoop ls i hs).1⟩ : FileChange)]) ++
        parseGo PState.scan (ls.drop (midLoop ls i hs).2) := by
  intro i hs
  induction i, hs using midLoop.induct ls with
  | case1 i hunks hlt line hat hdr hph r ih =>
    have hat' : strStarts (ls.getD i "") "@@ " = true := hat
    have hph' : parseHunkHeader (ls.getD i "") = some hdr := hph
    have hr : r = bodyLoop ls (i + 1) [] := rfl
    have hmax : max (bodyLoop ls (i + 1) []).2 (i + 1) = (bodyLoop ls (i + 1) []).2 :=
      max_eq_left (bodyLoop_ge ls (i + 1) [])
    rw [hr, hmax] at ih
    have hdrop := drop_getD_cons ls i hlt
    rw [midLoop_at_some ls i hunks hdr hlt hat' hph', hmax]
    rw [hdrop, parseGo_cons, pstep_file_at_some _ _ _ _ hat' hph']
    simp only [List.nil_append]
    rw [parseGo_body ls p hdr hunks (i + 1) []]
    exact ih
  | case2 i hunks hlt line hat hph ih =>
    have hat' : strStarts (ls.getD i "") "@@ " = true := hat
    have hph' : parseHunkHeader (ls.getD i "") = none := hph
    have hdrop := drop_getD_cons ls i hlt
    rw [midLoop_at_none ls i hunks hlt hat' hph']
    rw [hdrop, parseGo_cons, pstep_file_at_none _ _ _ hat' hph']
    simp only [List.nil_append]
    exact ih
  | case3 i hunks hlt line hat hdash =>
    have hat' : ¬ strStarts (ls.getD i "") "@@ " = true := hat
    have hdash' : strStarts (ls.getD i "") "--- " = true := hdash
    have hat'' : strStarts (ls.getD i "") "@@ " = false := Bool.eq_false_iff.mpr hat'
    have hdrop := drop_getD_cons ls i hlt
    rw [midLoop_dash ls i hunks hlt hat' hdash']
    rw [hdrop, parseGo_cons, pstep_file_dash _ _ _ hat'' hdash']
    rw [parseGo_cons, pstep_scan_dash _ hdash']
    simp
  | case4 i hunks hlt line hat hdash hge =>
    have hat' : ¬ strStarts (ls.getD i "") "@@ " = true := hat
    have hdash' : ¬ strStarts (ls.getD i "") "--- " = true := hdash
    have hat'' : strStarts (ls.getD i "") "@@ " = false := Bool.eq_false_iff.mpr hat'
    have hdash'' : strStarts (ls.getD i "") "--- " = false := Bool.eq_false_iff.mpr hdash'
    have hdrop := drop_getD_cons ls i hlt
    rw [midLoop_peek_eof ls i hunks hlt hat' hdash' hge]
    rw [hdrop, parseGo_cons, pstep_file_other _ _ _ hat'' hdash'']
    rw [List.drop_eq_nil_of_le (by omega), parseGo_nil, parseGo_nil]
    simp [finalizeState]
  | case5 i hunks hlt line hat hdash hge hpk =>
    have hat' : ¬ strStarts (ls.getD i "") "@@ " = true := hat
    have hdash' : ¬ strStarts (ls.getD i "") "--- " = true := hdash
    have hat'' : strStarts (ls.getD i "") "@@ " = false := Bool.eq_false_iff.mpr hat'
    have hdash'' : strStarts (ls.getD i "") "--- " = false := Bool.eq_false_iff.mpr hdash'
    have hat2 : strStarts (ls.getD (i + 1) "") "@@ " = false := starts_dashes_not_at _ hpk
    have hdrop := drop_getD_cons ls i hlt
    have hdrop2 := drop_getD_cons ls (i + 1) (by omega)
    rw [midLoop_peek_dash ls i hunks hlt hat' hdash' hge hpk]
    rw [hdrop, parseGo_cons, pstep_file_other _ _ _ hat'' hdash'']
    rw [hdrop2, parseGo_cons, parseGo_cons, pstep_file_dash _ _ _ hat2 hpk,
        pstep_scan_dash _ hpk]
    simp
  | case6 i hunks hlt line hat hdash hge hpk ih =>
    have hat' : ¬ strStarts (ls.getD i "") "@@ " = true := hat
    have hdash' : ¬ strStarts (ls.getD i "") "--- " = true := hdash
    have hat'' : strStarts (ls.getD i "") "@@ " = false := Bool.eq_false_iff.mpr hat'
    have hdash'' : strStarts (ls.getD i "") "--- " = false := Bool.eq_false_iff.mpr hdash'
    have hdrop := drop_getD_cons ls i hlt
    rw [midLoop_step ls i hunks hlt hat' hdash' hge hpk]
    rw [hdrop, parseGo_cons, pstep_file_other _ _ _ hat'' hdash'']
    simp only [List.nil_append]
    exact ih
  | case7 i hunks hlt =>
    rw [midLoop_eof ls i hunks hlt]
    rw [List.drop_eq_nil_of_le (by omega), parseGo_nil, parseGo_nil]
    simp [finalizeState]

theorem outer_eof (ls : List String) (i : Nat) (hge : ¬ i < ls.length) :
    outerLoop ls i = [] := by
  rw [outerLoop, dif_neg hge]

theorem outer_other (ls : List String) (i : Nat) (hlt : i < ls.length)
    (hdash : ¬ strStarts (ls.getD i "") "--- " = true) :
    outerLoop ls i = outerLoop ls (i + 1) := by
  rw [outerLoop, dif_pos hlt]
  simp only []
  rw [if_neg hdash]

theorem outer_dash_eof (ls : List String) (i : Nat) (hlt : i < ls.length)
    (hdash : strStarts (ls.getD i "") "--- " = true) (hge : i + 1 ≥ ls.length) :
    outerLoop ls i = outerLoop ls (i + 2) := by
  rw [outerLoop, dif_pos hlt]
  simp only []
  rw [if_pos hdash, if_pos hge]

theorem outer_dash_nopp (ls : List String) (i : Nat) (hlt : i < ls.length)
    (hdash : strStarts (ls.getD i "") "--- " = true) (hge : ¬ i + 1 ≥ ls.length)
    (hpp : strStarts (ls.getD (i + 1) "") "+++ " = false) :
    outerLoop ls i = outerLoop ls (i + 2) := by
  rw [outerLoop, dif_pos hlt]
  simp only []
  rw [if_pos hdash, if_neg hge, if_pos (show (!(strStarts (ls.getD (i + 1) "") "+++ ")) = true by rw [hpp]; rfl)]

theorem outer_dash_devnull (ls : List String) (i : Nat) (hlt : i < ls.length)
    (hdash : strStarts (ls.getD i "") "--- " = true) (hge : ¬ i + 1 ≥ ls.length)
    (hpp : strStarts (ls.getD (i + 1) "") "+++ " = true)
    (hfp : (if procNewPath (ls.getD (i + 1) "") ≠ "/dev/null"
        then procNewPath (ls.getD (i + 1) "")
        else procOldPath (ls.getD i "")) = "/dev/null") :
    outerLoop ls i = outerLoop ls (i + 2) := by
  rw [outerLoop, dif_pos hlt]
  simp only []
  rw [if_pos hdash, if_neg hge,
      if_neg (show ¬ (!(strStarts (ls.getD (i + 1) "") "+++ ")) = true by rw [hpp]; decide),
      if_pos hfp]

theorem outer_dash_go (ls : List String) (i : Nat) (hlt : i < ls.length)
    (hdash : strStarts (ls.getD i "") "--- " = true) (hge : ¬ i + 1 ≥ ls.length)
    (hpp : strStarts (ls.getD (i + 1) "") "+++ " = true)
    (hfp : ¬ (if procNewPath (ls.getD (i + 1) "") ≠ "/dev/null"
        then procNewPath (ls.getD (i + 1) "")
        else procOldPath (ls.getD i "")) = "/dev/null") :
    outerLoop ls i =
      (if (midLoop ls (i + 2) []).1.isEmpty then []
        else [(⟨(if procNewPath (ls.getD (i + 1) "") ≠ "/dev/null"
            then procNewPath (ls.getD (i + 1) "")
            else procOldPath (ls.getD i "")), (midLoop ls (i + 2) []).1⟩ : FileChange)]) ++
        outerLoop ls (max (midLoop ls (i + 2) []).2 (i + 2)) := by
  rw [outerLoop, dif_pos hlt]
  simp only []
  rw [if_pos hdash, if_neg hge,
      if_neg (show ¬ (!(strStarts (ls.getD (i + 1) "") "+++ ")) = true by rw [hpp]; decide),
      if_neg hfp]

theorem parseGo_outer (ls : List String) :
    ∀ i, parseGo PState.scan (ls.drop i) = outerLoop ls i := by
  intro i
  induction i using outerLoop.induct ls with
  | case1 i hlt line hdash hge ih =>
    have hdash' : strStarts (ls.getD i "") "--- " = true := hdash
    have hdrop := drop_getD_cons ls i hlt
    rw [hdrop, parseGo_cons, pstep_scan_dash _ hdash']
    rw [List.drop_eq_nil_of_le (show ls.length ≤ i + 1 by omega)]
    rw [outer_dash_eof ls i hlt hdash' hge, ← ih,
        List.drop_eq_nil_of_le (show ls.length ≤ i + 2 by omega)]
    rfl
  | case2 i hlt line hdash hge hbang ih =>
    have hdash' : strStarts (ls.getD i "") "--- " = true := hdash
    have hpp : strStarts (ls.getD (i + 1) "") "+++ " = false := by
      cases hx : strStarts (ls.getD (i + 1) "") "+++ "
      · rfl
      · rw [hx] at hbang; exact absurd hbang (by decide)
    have hdrop := drop_getD_cons ls i hlt
    have hdrop2 := drop_getD_cons ls (i + 1) (by omega)
    rw [hdrop, parseGo_cons, pstep_scan_dash _ hdash']
    rw [hdrop2, parseGo_cons, pstep_expect_other _ _ hpp]
    simp only [List.nil_append]
    rw [ih, outer_dash_nopp ls i hlt hdash' hge hpp]
  | case3 i hlt line hdash old_file hge hbang new_file fp hfp ih =>
    have hdash' : strStarts (ls.getD i "") "--- " = true := hdash
    have hpp : strStarts (ls.getD (i + 1) "") "+++ " = true := by
      cases hx : strStarts (ls.getD (i + 1) "") "+++ "
      · rw [hx] at hbang; exact absurd rfl hbang
      · rfl
    have hfp' : (if procNewPath (ls.getD (i + 1) "") ≠ "/dev/null"
        then procNewPath (ls.getD (i + 1) "")
        else procOldPath (ls.getD i "")) = "/dev/null" := hfp
    have hdrop := drop_getD_cons ls i hlt
    have hdrop2 := drop_getD_cons ls (i + 1) (by omega)
    rw [hdrop, parseGo_cons, pstep_scan_dash _ hdash']
    rw [hdrop2, parseGo_cons, pstep_expect_pp _ _ hpp]
    rw [if_pos hfp']
    simp only [List.nil_append]
    rw [ih, outer_dash_devnull ls i hlt hdash' hge hpp hfp']
  | case4 i hlt line hdash old_file hge hbang new_file fp hfp r ih =>
    have hdash' : strStarts (ls.getD i "") "--- " = true := hdash
    have hpp : strStarts (ls.getD (i + 1) "") "+++ " = true := by
      cases hx : strStarts (ls.getD (i + 1) "") "+++ "
      · rw [hx] at hbang; exact absurd rfl hbang
      · rfl
    have hfp' : ¬ (if procNewPath (ls.getD (i + 1) "") ≠ "/dev/null"
        then procNewPath (ls.getD (i + 1) "")
        else procOldPath (ls.getD i "")) = "/dev/null" := hfp
    have hr : r = midLoop ls (i + 2) [] := rfl
    have hmax : max (midLoop ls (i + 2) []).2 (i + 2) = (midLoop ls (i + 2) []).2 :=
      max_eq_left (midLoop_ge ls (i + 2) [])
    rw [hr, hmax] at ih
    have hdrop := drop_getD_cons ls i hlt
    have hdrop2 := drop_getD_cons ls (i + 1) (by omega)
    rw [hdrop, parseGo_cons, pstep_scan_dash _ hdash']
    rw [hdrop2, parseGo_cons, pstep_expect_pp _ _ hpp]
    rw [if_neg hfp']
    simp only [List.nil_append]
    rw [parseGo_mid ls _ (i + 2) []]
    rw [ih, outer_dash_go ls i hlt hdash' hge hpp hfp', hmax]
  | case5 i hlt line hdash ih =>
    have hdash'' : strStarts (ls.getD i "") "--- " = false := Bool.eq_false_iff.mpr hdash
    have hdrop := drop_getD_cons ls i hlt
    rw [hdrop, parseGo_cons, pstep_scan_other _ hdash'']
    simp only [List.nil_append]
    rw [ih, outer_other ls i hlt hdash]
  | case6 i hlt =>
    rw [List.drop_eq_nil_of_le (by omega), parseGo_nil, outer_eof ls i hlt]
    rfl

theorem parseOrig_eq_parseUnifiedDiff (s : String) :
    parseOrig s = parseUnifiedDiff s := by
  unfold parseOrig parseUnifiedDiff
  rw [← parseGo_outer (pySplitChar '\n' s) 0, List.drop_zero]
